import Mathlib

/-!
Verification development for the node-talker world server core.

We build a shallow embedding of the room / item / user managers, the
command router and the client session state machine, translated from the
JavaScript sources (src/modules/roomManager.js, itemManager.js,
userManager.js, commandHandler, clientHandler, models/room.js,
models/item.js, models/user.js, commands/take.js).

Conventions of the embedding:
* JavaScript objects become Lean structures; a property that may be
  `null`/absent becomes an `Option`.
* The file system backing store of a manager becomes an association list
  `List (String × _)` keyed the way the manager names its files.
* In-place mutation becomes explicit state passing; a function that may
  `throw` returns an `Except` (paired with the state reached at the
  throw point, since in JS the mutations performed before a throw
  survive it).
* JavaScript truthiness of the values actually used by the code
  (strings, booleans, `null`) is modelled explicitly.
-/

namespace Talker

/-- JS dynamic value as used for zone/room identifiers: callers pass either
numbers or strings, and template interpolation / `String(x)` stringifies. -/
inductive JSVal where
  | num (n : Nat)
  | str (s : String)
deriving DecidableEq, Repr

/-- `String(v)` / template-literal interpolation. -/
def jsToString : JSVal → String
  | .num n => Nat.repr n
  | .str s => s

/-- JS truthiness of a possibly-null string (`null`, `undefined` and the
empty string are falsy). -/
def jsTruthyStr : Option String → Bool
  | none => false
  | some s => s ≠ ""

/-- JS `x || dflt` for a possibly-absent boolean `x`. -/
def jsOrBool : Option Bool → Bool → Bool
  | some b, dflt => b || dflt
  | none, dflt => dflt

/-- JS `x || null` for a possibly-absent string `x`. -/
def jsOrNullStr : Option String → Option String
  | some s => if s = "" then none else some s
  | none => none

/-! ### Association-list model of a JS `Map` / a directory of files -/

/-- `Map.has` / `fs.existsSync` on a keyed store. -/
def hasKey (m : List (String × α)) (k : String) : Bool :=
  m.any (fun e => e.1 == k)

/-- `Map.get` / reading the file named `k`. -/
def lookupVal (m : List (String × α)) (k : String) : Option α :=
  (m.find? (fun e => e.1 == k)).map Prod.snd

/-- `Map.set`: replace in place if the key exists, append otherwise. -/
def mapInsert (m : List (String × α)) (kv : String × α) : List (String × α) :=
  if hasKey m kv.1 then
    m.map (fun e => if e.1 == kv.1 then (e.1, kv.2) else e)
  else
    m ++ [kv]

/-- `Map.delete` / `fs.unlinkSync`. -/
def removeKey (m : List (String × α)) (k : String) : List (String × α) :=
  m.filter (fun e => e.1 != k)

theorem hasKey_iff_mem_keys (m : List (String × α)) (k : String) :
    hasKey m k = true ↔ k ∈ m.map Prod.fst := by
  induction m with
  | nil => simp [hasKey]
  | cons e t ih =>
      simp only [hasKey, List.any_cons, List.map_cons, List.mem_cons] at *
      constructor
      · intro h
        rcases Bool.or_eq_true_iff.mp h with h1 | h2
        · exact Or.inl (beq_iff_eq.mp h1).symm
        · exact Or.inr (ih.mp h2)
      · intro h
        rcases h with h1 | h2
        · exact Bool.or_eq_true_iff.mpr (Or.inl (beq_iff_eq.mpr h1.symm))
        · exact Bool.or_eq_true_iff.mpr (Or.inr (ih.mpr h2))

theorem hasKey_of_lookup_some {m : List (String × α)} {k : String} {v : α}
    (h : lookupVal m k = some v) : hasKey m k = true := by
  induction m with
  | nil => simp [lookupVal] at h
  | cons e t ih =>
      by_cases hk : e.1 == k
      · simp [hasKey, hk]
      · simp only [lookupVal, List.find?_cons, hk] at h
        simp only [hasKey, List.any_cons, hk, Bool.false_or]
        exact ih h

theorem lookup_removeKey_self (m : List (String × α)) (k : String) :
    lookupVal (removeKey m k) k = none := by
  induction m with
  | nil => rfl
  | cons e t ih =>
      by_cases hk : e.1 == k
      · simp only [removeKey, List.filter_cons, bne, hk, Bool.not_true] at *
        exact ih
      · simp [removeKey, lookupVal, bne, hk]

theorem hasKey_removeKey_self (m : List (String × α)) (k : String) :
    hasKey (removeKey m k) k = false := by
  induction m with
  | nil => rfl
  | cons e t ih =>
      by_cases hk : e.1 == k
      · simp only [removeKey, List.filter_cons, bne, hk, Bool.not_true] at *
        exact ih
      · simp [removeKey, hasKey, bne, hk]

/-! ### Room model (models/room.js) -/

/-- A persisted room record as read from `ZZZ:RRR.json`: the optional
fields may be absent (`none`). -/
structure RoomData where
  roomId : String
  zoneId : String
  name : String
  description : String
  lockable : Option Bool := none
  locked : Option Bool := none
  whitelist : Option (List String) := none
  temporary : Option Bool := none
  creator : Option String := none
  exits : Option (List (String × String)) := none
  props : Option (List (String × String)) := none
deriving DecidableEq, Repr

/-- An in-memory `Room` entity. -/
structure Room where
  roomId : String
  zoneId : String
  name : String
  description : String
  lockable : Bool
  locked : Bool
  whitelist : List String
  temporary : Bool
  creator : Option String
  exits : List (String × String)
  props : List (String × String)
deriving DecidableEq, Repr

/-- The `Room` constructor: each defaulted field uses JS `||`, so
`temporary = data.temporary || true` (note: this yields `true` even when
the record stores `temporary: false`). -/
def Room.ofData (d : RoomData) : Room where
  roomId := d.roomId
  zoneId := d.zoneId
  name := d.name
  description := d.description
  lockable := jsOrBool d.lockable false
  locked := jsOrBool d.locked false
  whitelist := d.whitelist.getD []
  temporary := jsOrBool d.temporary true
  creator := jsOrNullStr d.creator
  exits := d.exits.getD []
  props := d.props.getD []

/-! ### RoomManager (modules/roomManager.js) -/

/-- RoomManager state: the in-memory cache (`this.rooms`) and the backing
store directory of room records, both keyed by the room key. -/
structure RoomMState where
  rooms : List (String × Room)
  files : List (String × RoomData)
deriving DecidableEq, Repr

/-- `pad`: `String(number).padStart(3, "0")`. -/
def pad (v : JSVal) : String :=
  let s := jsToString v
  ⟨List.replicate (3 - s.length) '0' ++ s.data⟩

/-- `getRoomKey(zoneId, roomId)`. -/
def getRoomKey (zoneId roomId : JSVal) : String :=
  pad zoneId ++ ":" ++ pad roomId

/-- `exists(zoneId, roomId)`: cache first, then the backing store, without
instantiating a Room. (Named `roomExists` because `exists` is reserved.) -/
def roomExists (st : RoomMState) (zoneId roomId : JSVal) : Bool :=
  if hasKey st.rooms (getRoomKey zoneId roomId) then true
  else hasKey st.files (getRoomKey zoneId roomId)

/-- `loadRoom(zoneId, roomId)`: cached hit is returned as-is; a missing or
unreadable record yields `none` (JS `false`) with the state unchanged;
otherwise the record is parsed, a `Room` is constructed and cached. -/
def loadRoom (st : RoomMState) (zoneId roomId : JSVal) : Option Room × RoomMState :=
  match lookupVal st.rooms (getRoomKey zoneId roomId) with
  | some room => (some room, st)
  | none =>
      if roomExists st zoneId roomId then
        match lookupVal st.files (getRoomKey zoneId roomId) with
        | some d =>
            (some (Room.ofData d),
             { st with rooms := st.rooms ++ [(getRoomKey zoneId roomId, Room.ofData d)] })
        | none => (none, st)
      else (none, st)

/-- `unloadRoom(zoneId, roomId)`: evicts the cache entry only; the backing
record is never touched. Unloading an absent key reports `false`. -/
def unloadRoom (st : RoomMState) (zoneId roomId : JSVal) : Bool × RoomMState :=
  if hasKey st.rooms (getRoomKey zoneId roomId) then
    (true, { st with rooms := removeKey st.rooms (getRoomKey zoneId roomId) })
  else
    (false, st)

theorem length_pad_of_le {v : JSVal} (h : (jsToString v).length ≤ 3) :
    (pad v).length = 3 := by
  show (List.replicate (3 - (jsToString v).length) '0' ++ (jsToString v).data).length = 3
  have hd : (jsToString v).data.length = (jsToString v).length := rfl
  simp only [List.length_append, List.length_replicate, hd]
  omega

set_option maxRecDepth 8192 in
theorem repr_length_le_three {n : Nat} (h : n < 1000) : (Nat.repr n).length ≤ 3 := by
  have : ∀ m : Nat, m < 1000 → (Nat.repr m).length ≤ 3 := by decide
  exact this n h

/-- C10: For every `Room` constructed from a backing record, the
`temporary` flag ends up `true`, no matter what the record stored
(`data.temporary || true` can never produce `false`). -/
theorem room_ofData_temporary_always_true (d : RoomData) :
    (Room.ofData d).temporary = true := by
  show jsOrBool d.temporary true = true
  cases d.temporary with
  | none => rfl
  | some b => cases b <;> rfl

/-- C2: For a room whose backing record exists and whose cached copy was
built from that record, `getRoomKey` is the zero-padded seven-character
`ZZZ:RRR` key, `unloadRoom` succeeds evicting only the cache entry (the
backing record is untouched), and `loadRoom` afterwards reconstructs a
`Room` with exactly the same field values. -/
theorem roomKey_stable_and_unload_load_round_trip
    (st : RoomMState) (z r : Nat) (d : RoomData)
    (hz : z < 1000) (hr : r < 1000)
    (hc : lookupVal st.rooms (getRoomKey (.num z) (.num r)) = some (Room.ofData d))
    (hf : lookupVal st.files (getRoomKey (.num z) (.num r)) = some d) :
    (getRoomKey (.num z) (.num r)).length = 7 ∧
    (unloadRoom st (.num z) (.num r)).1 = true ∧
    (unloadRoom st (.num z) (.num r)).2.files = st.files ∧
    (loadRoom (unloadRoom st (.num z) (.num r)).2 (.num z) (.num r)).1
      = some (Room.ofData d) := by
  set key := getRoomKey (.num z) (.num r) with hkey
  have hlen : key.length = 7 := by
    have h1 : (pad (JSVal.num z)).length = 3 :=
      length_pad_of_le (repr_length_le_three hz)
    have h2 : (pad (JSVal.num r)).length = 3 :=
      length_pad_of_le (repr_length_le_three hr)
    have : key = pad (JSVal.num z) ++ ":" ++ pad (JSVal.num r) := rfl
    rw [this, String.length_append, String.length_append, h1, h2]
    rfl
  have hhk : hasKey st.rooms key = true := hasKey_of_lookup_some hc
  have hunload : unloadRoom st (.num z) (.num r)
      = (true, { st with rooms := removeKey st.rooms key }) := by
    unfold unloadRoom
    rw [← hkey, hhk]
    simp
  refine ⟨hlen, by rw [hunload], by rw [hunload], ?_⟩
  rw [hunload]
  have hnone : lookupVal (removeKey st.rooms key) key = none :=
    lookup_removeKey_self st.rooms key
  have hnk : hasKey (removeKey st.rooms key) key = false :=
    hasKey_removeKey_self st.rooms key
  have hfk : hasKey st.files key = true := hasKey_of_lookup_some hf
  unfold loadRoom roomExists
  rw [← hkey]
  simp only [hnone, hnk, hfk, Bool.false_eq_true, if_false, if_true, hf]

/-- Witness for C2 at a concrete store. -/
theorem roomKey_stable_and_unload_load_round_trip_witness :
    let d : RoomData := { roomId := "001", zoneId := "002", name := "Gate",
                          description := "A gate.", temporary := some false }
    let st : RoomMState := { rooms := [("002:001", Room.ofData d)],
                             files := [("002:001", d)] }
    (getRoomKey (.num 2) (.num 1)).length = 7 ∧
    (unloadRoom st (.num 2) (.num 1)).1 = true ∧
    (unloadRoom st (.num 2) (.num 1)).2.files = st.files ∧
    (loadRoom (unloadRoom st (.num 2) (.num 1)).2 (.num 2) (.num 1)).1
      = some (Room.ofData d) :=
  roomKey_stable_and_unload_load_round_trip _ 2 1 _
    (by decide) (by decide) (by rfl) (by rfl)

/-! ### String helpers: JS `toLowerCase` and `includes` -/

/-- `String.prototype.toLowerCase` (ASCII case mapping, which covers the
characters exercised here). -/
def jsToLower (s : String) : String :=
  ⟨s.data.map Char.toLower⟩

/-- Boolean prefix test on character lists. -/
def isPrefixOfB : List Char → List Char → Bool
  | [], _ => true
  | _ :: _, [] => false
  | a :: as, b :: bs => a == b && isPrefixOfB as bs

/-- Boolean substring (contiguous) test: does `hay` contain `needle`? -/
def containsSub : List Char → List Char → Bool
  | needle, [] => isPrefixOfB needle []
  | needle, b :: bs => isPrefixOfB needle (b :: bs) || containsSub needle bs

/-- `hay.includes(needle)`. -/
def jsIncludes (hay needle : String) : Bool :=
  containsSub needle.data hay.data

/-! ### Item model (models/item.js) -/

/-- An `Item` object. The constructor fields are `id`, `name`, `type`,
`description`, `creator`, `owner`, `location`, `isContainer`; commands may
additionally assign the dynamic properties `container` and `open`
(absent = `none`), which the search and the take command consult. -/
structure Item where
  id : String
  name : String := "Undefined Item"
  type : String := "bauble"
  description : String := "This small item has unlimited potential, with the right hand it can be molded into anything."
  creator : String := ""
  owner : Option String := none
  location : Option String := none
  isContainer : Bool := false
  container : Option Bool := none
  openF : Option Bool := none
deriving DecidableEq, Repr

/-- The closed catalog of allowed item types (itemManager.js, transcribed
verbatim, including the duplicated `"bag"`). -/
def allowedTypes : List String :=
  ["bauble", "head", "clothing", "armor", "bag", "pants", "weapon", "tool",
   "shield", "footwear", "gloves", "accessory", "jewelry", "consumable",
   "potion", "scroll", "food", "drink", "furniture", "key", "book", "map",
   "material", "resource", "component", "spell", "ingredient", "artifact",
   "relic", "gadget", "toy", "instrument", "decoration", "currency", "gem",
   "orb", "amulet", "ring", "cloak", "belt", "helmet", "boots", "gauntlets",
   "lantern", "torch", "rod", "staff", "wand", "bag", "satchel", "backpack",
   "trap", "lockpick", "ammunition", "bomb", "device", "machine",
   "equipment", "siege", "banner", "emblem", "token", "charm", "talisman",
   "totem", "idol", "statue", "trophy", "fossil", "specimen", "collectible",
   "memorabilia", "souvenir", "keepsake", "heirloom", "ritual", "sacrifice",
   "offering", "vessel", "utility", "miscellaneous"]

/-- A field patch handed to `updateItem` (`newData`): each key is either
absent or present; a present `owner`/`location` may carry `null`. -/
structure ItemPatch where
  name : Option String := none
  description : Option String := none
  type : Option String := none
  owner : Option (Option String) := none
  location : Option (Option String) := none
deriving DecidableEq, Repr

/-- `Object.assign(item, newData)`: every present key overwrites the
item's field. -/
def applyPatch (it : Item) (p : ItemPatch) : Item :=
  { it with
    name := p.name.getD it.name
    description := p.description.getD it.description
    type := p.type.getD it.type
    owner := p.owner.getD it.owner
    location := p.location.getD it.location }

/-! ### ItemManager (modules/itemManager.js) -/

/-- ItemManager state: the cache (`this.items`) and the directory of
persisted item records, both keyed by item id. A persisted record carries
every field of the item (`saveItem` serializes the item verbatim), so the
backing record is itself an `Item` value and the hydration
`Object.assign(new Item(), itemData)` reproduces it. -/
structure ItemMState where
  items : List (String × Item)
  files : List (String × Item)
deriving DecidableEq, Repr

/-- `loadItem(itemId)`: cache hit → return it; missing record → `false`
(`none`) with the state unchanged; else hydrate the record and cache it. -/
def loadItem (st : ItemMState) (itemId : String) : Option Item × ItemMState :=
  match lookupVal st.items itemId with
  | some it => (some it, st)
  | none =>
      match lookupVal st.files itemId with
      | none => (none, st)
      | some d => (some d, { st with items := st.items ++ [(itemId, d)] })

/-- `saveItem(item)`: full overwrite of the record named by `item.id`. -/
def saveItem (files : List (String × Item)) (it : Item) : List (String × Item) :=
  mapInsert files (it.id, it)

/-- Second half of `updateItem`, once the item is guaranteed loaded: apply
the patch in place (this mutates the cached item), then check the
owner/location exclusivity invariant, and only then persist. -/
def updateLoaded (st : ItemMState) (itemId : String) (newData : ItemPatch) :
    Except String Item × ItemMState :=
  match lookupVal st.items itemId with
  | none => (.error "TypeError: Object.assign called on undefined", st)
  | some item =>
      if jsTruthyStr (applyPatch item newData).owner
          && jsTruthyStr (applyPatch item newData).location then
        (.error "An item cannot have both an owner and a location.",
         { st with items := mapInsert st.items (itemId, applyPatch item newData) })
      else
        (.ok (applyPatch item newData),
         { items := mapInsert st.items (itemId, applyPatch item newData),
           files := saveItem st.files (applyPatch item newData) })

/-- `updateItem(itemId, newData)`: reject an unknown `type` up front, load
the item if it is not cached (failing if truly absent), then patch, check
the invariant and persist. -/
def updateItem (st : ItemMState) (itemId : String) (newData : ItemPatch) :
    Except String Item × ItemMState :=
  if jsTruthyStr newData.type && !(allowedTypes.contains (newData.type.getD "")) then
    (.error ("Invalid item type. Allowed types are: "
               ++ String.intercalate ", " allowedTypes), st)
  else if hasKey st.items itemId then
    updateLoaded st itemId newData
  else
    match loadItem st itemId with
    | (some _, st') => updateLoaded st' itemId newData
    | (none, st') => (.error ("Item with ID " ++ itemId ++ " not found."), st')

/-- Search criteria for `findItems`: the keys the commands actually pass.
`name`/`description` match by case-insensitive substring, the rest by
strict (`===`) equality. -/
structure Criteria where
  name : Option String := none
  description : Option String := none
  location : Option String := none
  owner : Option String := none
  container : Option Bool := none
deriving DecidableEq, Repr

/-- The per-item criteria predicate of `findItems` (its inner
`Object.keys(criteria).every(...)` callback): `name`/`description` test
`item[key].toLowerCase().includes(criteria[key].toLowerCase())`, every
other key tests `item[key] === criteria[key]`. -/
def itemMatches (c : Criteria) (it : Item) : Bool :=
  (match c.name with
   | none => true
   | some v => jsIncludes (jsToLower it.name) (jsToLower v)) &&
  (match c.description with
   | none => true
   | some v => jsIncludes (jsToLower it.description) (jsToLower v)) &&
  (match c.location with
   | none => true
   | some v => it.location == some v) &&
  (match c.owner with
   | none => true
   | some v => it.owner == some v) &&
  (match c.container with
   | none => true
   | some v => it.container == some v)

/-- Modelled from the spec wording of C4 only (not from the code), for
comparison: substring containment "accepted in either direction". -/
def specEitherMatches (c : Criteria) (it : Item) : Bool :=
  (match c.name with
   | none => true
   | some v => jsIncludes (jsToLower it.name) (jsToLower v)
               || jsIncludes (jsToLower v) (jsToLower it.name)) &&
  (match c.description with
   | none => true
   | some v => jsIncludes (jsToLower it.description) (jsToLower v)
               || jsIncludes (jsToLower v) (jsToLower it.description)) &&
  (match c.location with
   | none => true
   | some v => it.location == some v) &&
  (match c.owner with
   | none => true
   | some v => it.owner == some v) &&
  (match c.container with
   | none => true
   | some v => it.container == some v)

/-- The hydration loop of `findItems`: walk the directory listing; every
record whose id is not yet cached is loaded through `loadItem` (which
appends it to the cache) and also recorded in `tempItems`. -/
def hydrateFold (items : List (String × Item)) :
    List (String × Item) → List (String × Item) × List (String × Item)
  | [] => (items, [])
  | f :: fs =>
      if hasKey items f.1 then hydrateFold items fs
      else
        let r := hydrateFold (items ++ [f]) fs
        (r.1, f :: r.2)

/-- `findItems(criteria)`: hydrate all records, union `this.items` with
`tempItems` (`new Map([...this.items, ...tempItems])`, later entries
overriding), and filter by the criteria predicate. Returns the matches
and the manager state after hydration. -/
def findItems (st : ItemMState) (c : Criteria) : List Item × ItemMState :=
  (((((hydrateFold st.items st.files).1
        ++ (hydrateFold st.items st.files).2).foldl mapInsert []).map
      Prod.snd).filter (itemMatches c),
   { st with items := (hydrateFold st.items st.files).1 })

/-! ### Map lemmas used to characterise `findItems` -/

theorem hasKey_append (m1 m2 : List (String × α)) (k : String) :
    hasKey (m1 ++ m2) k = (hasKey m1 k || hasKey m2 k) := by
  simp [hasKey, List.any_append]

theorem hasKey_eq_false_iff (m : List (String × α)) (k : String) :
    hasKey m k = false ↔ k ∉ m.map Prod.fst := by
  rw [← hasKey_iff_mem_keys]
  constructor
  · intro h hc; rw [h] at hc; cases hc
  · intro h; cases hv : hasKey m k
    · rfl
    · exact absurd hv h

theorem entry_unique {m : List (String × α)} (hnd : (m.map Prod.fst).Nodup)
    {k : String} {v w : α} (hv : (k, v) ∈ m) (hw : (k, w) ∈ m) : v = w := by
  induction m with
  | nil => cases hv
  | cons e t ih =>
      rw [List.map_cons, List.nodup_cons] at hnd
      rcases List.mem_cons.mp hv with rfl | hv'
      · rcases List.mem_cons.mp hw with heq | hw'
        · exact (congrArg Prod.snd heq).symm
        · exact absurd (List.mem_map_of_mem Prod.fst hw') hnd.1
      · rcases List.mem_cons.mp hw with rfl | hw'
        · exact absurd (List.mem_map_of_mem Prod.fst hv') hnd.1
        · exact ih hnd.2 hv' hw'

theorem mapInsert_of_mem {m : List (String × α)} (hnd : (m.map Prod.fst).Nodup)
    {k : String} {v : α} (hmem : (k, v) ∈ m) : mapInsert m (k, v) = m := by
  have hk : hasKey m (k, v).1 = true :=
    (hasKey_iff_mem_keys m k).mpr (List.mem_map_of_mem Prod.fst hmem)
  unfold mapInsert
  rw [hk]
  simp only [if_true]
  have hcongr : ∀ e ∈ m, (if e.1 == (k, v).1 then (e.1, (k, v).2) else e) = e := by
    intro e he
    by_cases hek : e.1 == (k, v).1
    · have hek' : e.1 = k := beq_iff_eq.mp hek
      have hmem' : (k, e.2) ∈ m := by
        have : e = (k, e.2) := by
          rw [← hek']
        rw [← this]; exact he
      have hv2 := entry_unique hnd hmem' hmem
      simp only [hek, if_true]
      rw [← hv2]
    · simp [hek]
  rw [List.map_congr_left hcongr]
  exact List.map_id' m

theorem foldl_mapInsert_fresh (l : List (String × α)) :
    ∀ acc : List (String × α), (((acc ++ l).map Prod.fst).Nodup) →
      l.foldl mapInsert acc = acc ++ l := by
  induction l with
  | nil => intro acc _; simp
  | cons e t ih =>
      intro acc hnd
      have hmem : e.1 ∈ (e :: t).map Prod.fst := by simp
      have hdisj : (acc.map Prod.fst).Disjoint ((e :: t).map Prod.fst) := by
        rw [List.map_append] at hnd
        exact (List.nodup_append.mp hnd).2.2
      have he : hasKey acc e.1 = false :=
        (hasKey_eq_false_iff acc e.1).mpr (fun hc => hdisj hc hmem)
      have hins : mapInsert acc e = acc ++ [e] := by
        unfold mapInsert; rw [he]; simp
      rw [List.foldl_cons, hins, ih (acc ++ [e]) (by
        rw [List.append_assoc]
        simpa using hnd)]
      simp

theorem foldl_mapInsert_mem (l : List (String × α)) :
    ∀ m : List (String × α), (m.map Prod.fst).Nodup → (∀ e ∈ l, e ∈ m) →
      l.foldl mapInsert m = m := by
  induction l with
  | nil => intro m _ _; rfl
  | cons e t ih =>
      intro m hnd hsub
      obtain ⟨k, v⟩ := e
      rw [List.foldl_cons, mapInsert_of_mem hnd (hsub (k, v) (by simp))]
      exact ih m hnd (fun x hx => hsub x (List.mem_cons_of_mem _ hx))

theorem hydrateFold_spec (fs : List (String × Item)) :
    ∀ items : List (String × Item), (fs.map Prod.fst).Nodup →
      hydrateFold items fs
        = (items ++ fs.filter (fun f => !hasKey items f.1),
           fs.filter (fun f => !hasKey items f.1)) := by
  induction fs with
  | nil => intro items _; simp [hydrateFold]
  | cons f fs ih =>
      intro items hnd
      rw [List.map_cons, List.nodup_cons] at hnd
      have hstep : hydrateFold items (f :: fs)
          = if hasKey items f.1 then hydrateFold items fs
            else ((hydrateFold (items ++ [f]) fs).1,
                  f :: (hydrateFold (items ++ [f]) fs).2) := rfl
      by_cases hk : hasKey items f.1
      · rw [hstep, if_pos hk, ih items hnd.2, List.filter_cons]
        simp [hk]
      · have hbeq : hasKey items f.1 = false := by
          cases hv : hasKey items f.1
          · rfl
          · exact absurd hv hk
        have hfilter : fs.filter (fun g => !hasKey (items ++ [f]) g.1)
            = fs.filter (fun g => !hasKey items g.1) := by
          apply List.filter_congr
          intro g hg
          have hne : (f.1 == g.1) = false := by
            have : f.1 ≠ g.1 := by
              intro hc
              exact hnd.1 (hc ▸ List.mem_map_of_mem Prod.fst hg)
            exact beq_eq_false_iff_ne.mpr this
          rw [hasKey_append]
          simp [hasKey, hne]
        rw [hstep, if_neg hk, ih (items ++ [f]) hnd.2, hfilter, List.filter_cons]
        simp [hbeq, List.append_assoc]

/-- C4 (amended): `findItems` returns exactly the items of the union of
the cache and the not-yet-cached persisted records (cache entries first,
hence winning the `Map` union) that satisfy the criteria predicate —
`name`/`description` by case-insensitive substring containment of the
criteria value in the item's field, every other key by strict equality;
the state afterwards carries the hydrated cache. -/
theorem findItems_union_filter (st : ItemMState) (c : Criteria)
    (hni : (st.items.map Prod.fst).Nodup) (hnf : (st.files.map Prod.fst).Nodup) :
    findItems st c
      = (((st.items ++ st.files.filter (fun f => !hasKey st.items f.1)).map
            Prod.snd).filter (itemMatches c),
         { st with
             items := st.items ++ st.files.filter (fun f => !hasKey st.items f.1) }) := by
  unfold findItems
  rw [hydrateFold_spec st.files st.items hnf]
  dsimp only
  have hFnd : ((st.files.filter (fun f => !hasKey st.items f.1)).map Prod.fst).Nodup :=
    hnf.sublist ((List.filter_sublist _).map _)
  have hdisj : (st.items.map Prod.fst).Disjoint
      ((st.files.filter (fun f => !hasKey st.items f.1)).map Prod.fst) := by
    intro k hki hkf
    obtain ⟨f, hf, rfl⟩ := List.mem_map.mp hkf
    have hmem := List.of_mem_filter hf
    have : hasKey st.items f.1 = true := (hasKey_iff_mem_keys _ _).mpr hki
    rw [this] at hmem
    cases hmem
  have hnd' : ((st.items ++ st.files.filter (fun f => !hasKey st.items f.1)).map
      Prod.fst).Nodup := by
    rw [List.map_append]
    exact List.Nodup.append hni hFnd hdisj
  rw [List.foldl_append,
    foldl_mapInsert_fresh _ [] (by simpa using hnd'),
    List.nil_append,
    foldl_mapInsert_mem _ _ hnd'
      (fun e he => List.mem_append_right _ he)]

/-- Concrete store for C4: one cached item named "Tor", no files. -/
def c4State : ItemMState :=
  { items := [("t1", { id := "t1", name := "Tor" })], files := [] }

/-- Counterexample for C4 as stated: with criteria `{name: "Torch"}`, the
item named "Tor" satisfies the either-direction containment the claim
describes ("tor" is a substring of "torch"), yet `findItems` does not
return it — containment is accepted in one direction only. -/
theorem findItems_not_either_direction :
    specEitherMatches { name := some "Torch" } { id := "t1", name := "Tor" } = true ∧
    ({ id := "t1", name := "Tor" } : Item) ∈ (c4State.items.map Prod.snd) ∧
    (findItems c4State { name := some "Torch" }).1 = [] := by
  refine ⟨by decide, by decide, by decide⟩

/-- Concrete store for the C4 witness: a cached item named "torch" and a
persisted-only item named "Brass Torch". -/
def c4TorchState : ItemMState :=
  { items := [("t1", { id := "t1", name := "torch" })],
    files := [("t2", { id := "t2", name := "Brass Torch" })] }

/-- Witness for C4 (amended) at a concrete store, also checking the two
concrete matches the claim names: `findItems({name: "Torch"})` returns
both the item named "torch" and the item named "Brass Torch". -/
theorem findItems_union_filter_witness :
    findItems c4TorchState { name := some "Torch" }
      = (((c4TorchState.items
            ++ c4TorchState.files.filter
                 (fun f => !hasKey c4TorchState.items f.1)).map
            Prod.snd).filter (itemMatches { name := some "Torch" }),
         { c4TorchState with
             items := c4TorchState.items
               ++ c4TorchState.files.filter
                    (fun f => !hasKey c4TorchState.items f.1) }) ∧
    (findItems c4TorchState { name := some "Torch" }).1
      = [{ id := "t1", name := "torch" }, { id := "t2", name := "Brass Torch" }] :=
  ⟨findItems_union_filter c4TorchState { name := some "Torch" }
      (by decide) (by decide),
   by decide⟩

/-- C1 (amended): when a patch would leave a (cached) item with both a
truthy `owner` and a truthy `location`, `updateItem` rejects the update
with the invariant error before persisting — the backing record is
unchanged — but the cached in-memory item has already been patched in
place (`Object.assign` runs before the exclusivity check). -/
theorem updateItem_rejection_behaviour (st : ItemMState) (itemId : String)
    (it : Item) (newData : ItemPatch)
    (hc : lookupVal st.items itemId = some it)
    (htype : (jsTruthyStr newData.type
                && !(allowedTypes.contains (newData.type.getD ""))) = false)
    (howner : jsTruthyStr (applyPatch it newData).owner = true)
    (hloc : jsTruthyStr (applyPatch it newData).location = true) :
    updateItem st itemId newData
      = (.error "An item cannot have both an owner and a location.",
         { st with items := mapInsert st.items (itemId, applyPatch it newData) }) := by
  unfold updateItem
  rw [htype]
  simp only [Bool.false_eq_true, if_false]
  rw [hasKey_of_lookup_some hc]
  simp only [if_true]
  unfold updateLoaded
  rw [hc]
  dsimp only
  rw [howner, hloc]
  simp

/-- Concrete item for C1: cached and persisted, located in a room,
unowned. -/
def c1Item : Item :=
  { id := "i1", name := "torch", location := some "000:000" }

/-- Concrete ItemManager state for C1. -/
def c1State : ItemMState :=
  { items := [("i1", c1Item)], files := [("i1", c1Item)] }

/-- Patch for C1: give the located item an owner. -/
def c1Patch : ItemPatch := { owner := some (some "u1") }

/-- Counterexample for C1 as stated: the rejected update leaves the
backing record alone but does not leave the cached in-memory item
unchanged — after the throw the cache holds the patched item with both
`owner` and `location` set. -/
theorem updateItem_cache_mutated_on_rejection :
    (updateItem c1State "i1" c1Patch).1
        = .error "An item cannot have both an owner and a location." ∧
    (updateItem c1State "i1" c1Patch).2.files = c1State.files ∧
    (updateItem c1State "i1" c1Patch).2.items ≠ c1State.items := by
  refine ⟨by rfl, by decide, by decide⟩

/-- Witness for C1 (amended) at the concrete state. -/
theorem updateItem_rejection_behaviour_witness :
    updateItem c1State "i1" c1Patch
      = (.error "An item cannot have both an owner and a location.",
         { c1State with
             items := mapInsert c1State.items ("i1", applyPatch c1Item c1Patch) }) :=
  updateItem_rejection_behaviour c1State "i1" c1Item c1Patch
    (by decide) (by decide) (by decide) (by decide)

/-! ### Session / actor model (models/user.js) -/

/-- A connected session (`User` object). `zoneId`/`roomId` hold whatever
dynamic value `moveUser` last assigned (initially the string defaults).
`client` is the connection handle (`none` = no live connection); the
event emitter is not modelled (its only use, re-triggering `look` after a
move, emits no further state changes to the stores modelled here). -/
structure SUser where
  id : String
  firstName : String
  lastName : String
  role : String := "visitor"
  status : String := "login"
  temporary : Bool := true
  online : Bool := false
  zoneId : JSVal := .str "-999"
  roomId : JSVal := .str "001"
  client : Option Nat := none
  supportsColor : Bool := true
  supportsHighAscii : Bool := true
  morphedName : String := ""
deriving DecidableEq, Repr

/-- One write performed on a connection by `send`: the resolved user's id,
the connection handle written to, the message text, and whether the
formatting service is applied to it (the text-substitution engine is an
external collaborator, so the log records the pre-formatting text). -/
structure SendEntry where
  rcpt : String
  conn : Nat
  text : String
  formatted : Bool
deriving DecidableEq, Repr

/-- The world as the UserManager sees it: the roster, the room store it
holds a reference to, and the stream of connection writes. -/
structure World where
  users : List SUser
  rooms : RoomMState
  log : List SendEntry
deriving DecidableEq, Repr

/-- `getOnlineUsers()`: `_.filter(this.users, "online")`. -/
def getOnlineUsers (users : List SUser) : List SUser :=
  users.filter (·.online)

/-- `getActiveUsers()`: `_.filter(this.users, {status: "active"})`. -/
def getActiveUsers (users : List SUser) : List SUser :=
  users.filter (fun u => u.status == "active")

/-- `getUser(params)` for the dominant `{id}` lookup: first online user
with that id (`_.find(this.getOnlineUsers(), {id})`). -/
def getUserIn (users : List SUser) (id : String) : Option SUser :=
  (getOnlineUsers users).find? (fun u => u.id == id)

/-- `getRoomUsers(zoneId, roomId)`: strict-equality filter on the whole
roster, regardless of online/active state. -/
def getRoomUsers (users : List SUser) (zoneId roomId : JSVal) : List SUser :=
  users.filter (fun u => u.zoneId == zoneId && u.roomId == roomId)

/-- The write `send` would perform for a given id (the body of its
per-id loop up to the `if (user && user.client)` test): resolve the id
against the online users; if found and it has a client, the write goes to
that user's connection; otherwise nothing is written (log-and-skip). -/
def resolveWrite (users : List SUser) (message : String) (format : Bool)
    (id : String) : Option SendEntry :=
  match getUserIn users id with
  | some u =>
      match u.client with
      | some c => some ⟨u.id, c, message, format⟩
      | none => none
  | none => none

/-- The per-id loop body of `send`: perform the resolved write, if any. -/
def sendOne (w : World) (id : String) (message : String) (format : Bool) : World :=
  match resolveWrite w.users message format id with
  | some e => { w with log := w.log ++ [e] }
  | none => w

/-- `send(userIds, message, format = true)` (userIds already wrapped into
an array, as the first lines of `send` do for a bare string). -/
def send (w : World) (userIds : List String) (message : String)
    (format : Bool := true) : World :=
  userIds.foldl (fun w' id => sendOne w' id message format) w

/-- `broadcast(message)`: `send` applied to every active member. -/
def broadcast (w : World) (message : String) : World :=
  (getActiveUsers w.users).foldl (fun w' u => send w' [u.id] message true) w

theorem sendOne_users (w : World) (id : String) (m : String) (f : Bool) :
    (sendOne w id m f).users = w.users := by
  unfold sendOne
  cases resolveWrite w.users m f id <;> rfl

theorem sendOne_rooms (w : World) (id : String) (m : String) (f : Bool) :
    (sendOne w id m f).rooms = w.rooms := by
  unfold sendOne
  cases resolveWrite w.users m f id <;> rfl

theorem sendOne_log (w : World) (id : String) (m : String) (f : Bool) :
    (sendOne w id m f).log
      = w.log ++ (resolveWrite w.users m f id).toList := by
  unfold sendOne
  cases resolveWrite w.users m f id <;> simp

/-- C5: `send` to a mixed list of ids changes neither the roster nor the
room store, and appends exactly one write per id that resolves to an
online user with a live connection (in id order); an offline or unknown
id contributes no write and causes no failure. Each appended write goes
to the connection of the online user the id resolved to. -/
theorem send_delivers_to_online_subset_only
    (w : World) (ids : List String) (m : String) (f : Bool) :
    (send w ids m f).users = w.users ∧
    (send w ids m f).rooms = w.rooms ∧
    (send w ids m f).log = w.log ++ ids.filterMap (resolveWrite w.users m f) ∧
    (∀ e ∈ (send w ids m f).log, e ∈ w.log ∨
       ∃ u, u ∈ w.users ∧ u.online = true ∧ u.id = e.rcpt ∧
         u.client = some e.conn ∧ e.text = m ∧ e.rcpt ∈ ids) := by
  have main : ∀ (ids : List String) (w : World),
      (send w ids m f).users = w.users ∧
      (send w ids m f).rooms = w.rooms ∧
      (send w ids m f).log = w.log ++ ids.filterMap (resolveWrite w.users m f) := by
    intro ids
    induction ids with
    | nil => intro w; exact ⟨rfl, rfl, by simp [send]⟩
    | cons id rest ih =>
        intro w
        have hstep : send w (id :: rest) m f = send (sendOne w id m f) rest m f := rfl
        obtain ⟨hu, hr, hl⟩ := ih (sendOne w id m f)
        refine ⟨by rw [hstep, hu, sendOne_users], by rw [hstep, hr, sendOne_rooms], ?_⟩
        rw [hstep, hl, sendOne_log, sendOne_users, List.filterMap_cons]
        cases hres : resolveWrite w.users m f id <;> simp [hres]
  obtain ⟨hu, hr, hl⟩ := main ids w
  refine ⟨hu, hr, hl, ?_⟩
  intro e he
  rw [hl] at he
  rcases List.mem_append.mp he with hin | hnew
  · exact Or.inl hin
  · right
    obtain ⟨id, hid, hres⟩ := List.mem_filterMap.mp hnew
    unfold resolveWrite at hres
    cases hg : getUserIn w.users id with
    | none =>
        simp only [hg] at hres
        exact Option.noConfusion hres
    | some u =>
        simp only [hg] at hres
        cases hc : u.client with
        | none =>
            simp only [hc] at hres
            exact Option.noConfusion hres
        | some c =>
            simp only [hc, Option.some.injEq] at hres
            subst hres
            have hg' : (getOnlineUsers w.users).find? (fun v => v.id == id) = some u := hg
            have humem : u ∈ getOnlineUsers w.users := List.mem_of_find?_eq_some hg'
            have honline : u.online = true := by
              have := List.of_mem_filter humem
              simpa using this
            have huid : (u.id == id) = true := by
              have h2 := List.find?_some hg'
              simpa using h2
            refine ⟨u, List.mem_of_mem_filter humem, honline, rfl, ?_, rfl, ?_⟩
            · rw [hc]
            · show u.id ∈ ids
              rw [beq_iff_eq.mp huid]
              exact hid

/-! ### Persisted accounts: `UserManager.create` -/

/-- A persisted account record (the sanitized projection written by
`create`/`save`: no client handle, event emitter, status or online flag).
Only the fields the uniqueness checks consult are modelled individually;
`payload` stands for the remaining profile fields. -/
structure URecord where
  id : String
  firstName : String
  lastName : String
  salt : String := ""
  password : String := ""
  payload : String := ""
deriving DecidableEq, Repr

/-- `create(userInfo)`: spread `userInfo`, overwrite `id` with a freshly
generated uuid (`freshId` here), reject an id collision, reject an exact
(firstName, lastName) collision with any persisted record, and only then
write the new record. The store is the `users/` directory keyed by id. -/
def create (files : List (String × URecord)) (userInfo : URecord)
    (freshId : String) : Except String URecord × List (String × URecord) :=
  if hasKey files freshId then
    (.error "User with this ID already exists.<sl>", files)
  else if files.any (fun f => f.2.firstName == userInfo.firstName
      && f.2.lastName == userInfo.lastName) then
    (.error "User with this first and last name already exists.<sl>", files)
  else
    (.ok { userInfo with id := freshId },
     files ++ [(freshId, { userInfo with id := freshId })])

/-- No two records of the store share a (firstName, lastName) pair. -/
def namesPairwiseDistinct (files : List (String × URecord)) : Prop :=
  files.Pairwise (fun a b =>
    ¬(a.2.firstName = b.2.firstName ∧ a.2.lastName = b.2.lastName))

/-- C6: with a fresh id, `create` on a (firstName, lastName) pair already
persisted throws the duplicate-name error and writes no record; and
whatever happens, `create` preserves the invariant that no two persisted
records share a (firstName, lastName) pair. -/
theorem create_duplicate_name_rejected (files : List (String × URecord))
    (userInfo : URecord) (freshId : String)
    (hfresh : hasKey files freshId = false) :
    ((∃ f ∈ files, f.2.firstName = userInfo.firstName
        ∧ f.2.lastName = userInfo.lastName) →
      create files userInfo freshId
        = (.error "User with this first and last name already exists.<sl>",
           files)) ∧
    (namesPairwiseDistinct files →
      namesPairwiseDistinct (create files userInfo freshId).2) := by
  constructor
  · rintro ⟨f, hf, hn1, hn2⟩
    unfold create
    rw [hfresh]
    have hany : files.any (fun g => g.2.firstName == userInfo.firstName
        && g.2.lastName == userInfo.lastName) = true := by
      rw [List.any_eq_true]
      exact ⟨f, hf, by rw [hn1, hn2]; simp⟩
    rw [hany]
    simp
  · intro hinv
    unfold create
    rw [hfresh]
    simp only [Bool.false_eq_true, if_false]
    by_cases hany : files.any (fun g => g.2.firstName == userInfo.firstName
        && g.2.lastName == userInfo.lastName) = true
    · rw [hany]
      simpa using hinv
    · have hany' : files.any (fun g => g.2.firstName == userInfo.firstName
          && g.2.lastName == userInfo.lastName) = false := by
        cases hv : files.any (fun g => g.2.firstName == userInfo.firstName
            && g.2.lastName == userInfo.lastName)
        · rfl
        · exact absurd hv hany
      rw [hany']
      simp only [Bool.false_eq_true, if_false]
      unfold namesPairwiseDistinct at hinv ⊢
      rw [List.pairwise_append]
      refine ⟨hinv, by simp, ?_⟩
      intro a ha b hb
      simp only [List.mem_singleton] at hb
      subst hb
      intro hcontra
      have hall := List.any_eq_false.mp hany' a ha
      exact hall (by rw [hcontra.1, hcontra.2]; simp)

/-- Witness for C6 at a concrete store. -/
theorem create_duplicate_name_rejected_witness :
    create [("a1", { id := "a1", firstName := "Jane", lastName := "Doe" })]
        { id := "tmp", firstName := "Jane", lastName := "Doe" } "f1"
      = (.error "User with this first and last name already exists.<sl>",
         [("a1", { id := "a1", firstName := "Jane", lastName := "Doe" })]) :=
  (create_duplicate_name_rejected _ _ _ (by decide)).1
    ⟨("a1", { id := "a1", firstName := "Jane", lastName := "Doe" }),
     by simp, rfl, rfl⟩

/-! ### `UserManager.moveUser` -/

/-- The `userIds.forEach` loop of `moveUser`: resolve each id through
`getUser({id})` and overwrite the found session's `zoneId`/`roomId` in
place. A `getUser` miss leaves `user` undefined, and `user.zoneId = ...`
then throws a TypeError, aborting the batch at that point. Roster ids are
unique (a fresh uuid per connection), so the in-place mutation of the
found object is the by-id update below. The `user_move` event emitted
afterwards re-runs `look` for the moved user; that re-dispatch produces
output only and is outside this model. -/
def moveUserLoop (w : World) (ids : List String) (zoneId roomId : JSVal) :
    Except String Bool × World :=
  match ids with
  | [] => (.ok true, w)
  | id :: rest =>
      match getUserIn w.users id with
      | none => (.error "TypeError: Cannot set properties of undefined", w)
      | some _ =>
          moveUserLoop
            { w with users := w.users.map (fun u =>
                if u.id == id then { u with zoneId := zoneId, roomId := roomId } else u) }
            rest zoneId roomId

/-- `moveUser(userIds, zoneId, roomId)` (ids already wrapped into an
array). The destination room is resolved through `loadRoom`. In the
room-not-found branch the source reads `user.id` — but no `user` variable
is in scope there, so evaluating the arguments of `this.send` throws a
ReferenceError instead of sending the error text and returning `false`. -/
def moveUser (w : World) (userIds : List String) (zoneId roomId : JSVal) :
    Except String Bool × World :=
  match loadRoom w.rooms zoneId roomId with
  | (none, rst) =>
      (.error "ReferenceError: user is not defined", { w with rooms := rst })
  | (some _, rst) => moveUserLoop { w with rooms := rst } userIds zoneId roomId

/-- Concrete world for C3: one online user, empty room store. -/
def c3World : World :=
  { users := [{ id := "u1", firstName := "Ann", lastName := "Lee",
                online := true, client := some 1 }],
    rooms := { rooms := [], files := [] },
    log := [] }

/-- C3 (code bug): moving a user to a nonexistent room does not return
`false` and does not message anyone — the not-found branch dereferences
an undeclared `user` variable, so the call throws a ReferenceError. The
sessions' locations are indeed untouched (the throw happens before the
per-id loop). -/
theorem moveUser_missing_room_throws :
    (moveUser c3World ["u1"] (.str "999") (.str "999")).1
        = .error "ReferenceError: user is not defined" ∧
    (moveUser c3World ["u1"] (.str "999") (.str "999")).2.users = c3World.users ∧
    (moveUser c3World ["u1"] (.str "999") (.str "999")).2.log = c3World.log := by
  refine ⟨by rfl, by decide, by decide⟩

/-! ### CommandHandler (modules/commandHandler.js) -/

/-- A loaded verb definition: canonical name, aliases, and the handler.
The handler receives the remainder of the input line (`undefined` when
the line had no arguments) and either returns a value or throws — the
other members of the invocation context do not influence the router. -/
structure Command where
  name : String
  aliases : List String := []
  exec : Option String → Except String Bool

/-- `message.split(/ (.+)/)` destructured to `[commandName, parameters]`:
split at the first space that has at least one character after it;
without such a space the whole line is the command name and `parameters`
is `undefined`. -/
def splitAtFirstSpaceAux : List Char → Option (List Char × List Char)
  | [] => none
  | c :: cs =>
      if c = ' ' ∧ cs ≠ [] then some ([], cs)
      else
        match splitAtFirstSpaceAux cs with
        | some (pre, post) => some (c :: pre, post)
        | none => none

/-- See `splitAtFirstSpaceAux`. -/
def splitFirstSpace (message : String) : String × Option String :=
  match splitAtFirstSpaceAux message.data with
  | some (pre, post) => (⟨pre⟩, some ⟨post⟩)
  | none => (message, none)

/-- `handleCommands(params)`: split the line, look the verb up in the
commands map (which holds canonical names and aliases alike); a miss
returns `false`; a hit runs the handler inside `try`/`catch`, returning
`true` on normal completion and `false` when the handler throws. -/
def handleCommands (commands : List (String × Command)) (message : String) : Bool :=
  match lookupVal commands (splitFirstSpace message).1 with
  | none => false
  | some cmd =>
      match cmd.exec (splitFirstSpace message).2 with
      | .ok _ => true
      | .error _ => false

/-- C8: dispatch splits the line at the first space into (verb,
remainder); an unresolved verb yields `false` rather than an exception,
and a handler that throws is caught at the router boundary, the dispatch
again returning `false`. -/
theorem handleCommands_returns_false_on_miss_or_throw
    (commands : List (String × Command)) (message : String) :
    (lookupVal commands (splitFirstSpace message).1 = none →
       handleCommands commands message = false) ∧
    (∀ cmd e, lookupVal commands (splitFirstSpace message).1 = some cmd →
       cmd.exec (splitFirstSpace message).2 = .error e →
       handleCommands commands message = false) := by
  constructor
  · intro hmiss
    unfold handleCommands
    rw [hmiss]
  · intro cmd e hhit hthrow
    unfold handleCommands
    rw [hhit]
    dsimp only
    rw [hthrow]

/-- A table for the C8 witness: one command whose handler always throws. -/
def c8Table : List (String × Command) :=
  [("boom", { name := "boom", exec := fun _ => .error "kaboom" })]

/-- Witness for C8: a missing verb and a throwing handler both make the
dispatch return `false`. -/
theorem handleCommands_returns_false_on_miss_or_throw_witness :
    handleCommands c8Table "missing verb" = false ∧
    handleCommands c8Table "boom now" = false :=
  ⟨(handleCommands_returns_false_on_miss_or_throw c8Table "missing verb").1 rfl,
   (handleCommands_returns_false_on_miss_or_throw c8Table "boom now").2
     { name := "boom", exec := fun _ => .error "kaboom" } "kaboom" rfl rfl⟩

/-! ### The take command (commands/take.js) -/

/-- Split a character list at every occurrence of `sep`
(JS `String.prototype.split` with a one-character separator). -/
def splitOnChar (sep : Char) : List Char → List (List Char)
  | [] => [[]]
  | c :: cs =>
      match splitOnChar sep cs with
      | [] => [[c]]
      | h :: t => if c = sep then [] :: h :: t else (c :: h) :: t

/-- `s.split(':')`. -/
def splitColon (s : String) : List String :=
  (splitOnChar ':' s.data).map (fun l => String.mk l)

/-- `data.match(/"([^"]+)"|(\S+)/g) || []` for the quote-free inputs the
claims exercise: whitespace tokenisation. -/
def tokenize (s : String) : List String :=
  ((splitOnChar ' ' s.data).map (fun l => String.mk l)).filter (fun t => t ≠ "")

/-- `!isNaN(s)` for the plain decimal tokens the command deals in. -/
def isNumericJS (s : String) : Bool :=
  !s.data.isEmpty && s.data.all Char.isDigit

/-- `parseInt(s, 10)` on a decimal digit string. -/
def parseIntJS (s : String) : Nat :=
  s.data.foldl (fun acc c => acc * 10 + (c.toNat - 48)) 0

/-- `\s` of the container-word regex. -/
def isSpaceChar (c : Char) : Bool :=
  c = ' ' || c = '\t' || c = '\n' || c = '\r'

/-- Try the alternation `(from|in|into|on|onto)` at the head of `l`, in
the regex's left-to-right order, returning the rest on a match. -/
def matchAltWord (l : List Char) : Option (List Char) :=
  if isPrefixOfB "from".data l then some (l.drop 4)
  else if isPrefixOfB "in".data l then some (l.drop 2)
  else if isPrefixOfB "into".data l then some (l.drop 4)
  else if isPrefixOfB "on".data l then some (l.drop 2)
  else if isPrefixOfB "onto".data l then some (l.drop 4)
  else none

/-- Left-to-right global replace of `/\s*(from|in|into|on|onto)\s*/` by
the empty string (fuelled by the input length; each match consumes at
least the matched word). -/
def stripSep : Nat → List Char → List Char
  | 0, l => l
  | _ + 1, [] => []
  | fuel + 1, c :: cs =>
      match matchAltWord ((c :: cs).dropWhile isSpaceChar) with
      | some rest => stripSep fuel (rest.dropWhile isSpaceChar)
      | none => c :: stripSep fuel cs

/-- JS `trim()` (for the ASCII whitespace these inputs contain). -/
def trimChars (l : List Char) : List Char :=
  ((l.dropWhile isSpaceChar).reverse.dropWhile isSpaceChar).reverse

/-- See `trimChars`. -/
def jsTrim (s : String) : String :=
  String.mk (trimChars s.data)

/-- `parsedData.slice(k).join(" ").replace(/\s*(from|in|into|on|onto)\s*/g, '').trim()`. -/
def containerNameOf (toks : List String) : String :=
  jsTrim (String.mk (stripSep (String.intercalate " " toks).data.length
      (String.intercalate " " toks).data))

/-- The quantity selector: `1`, an explicit count, or `"all"`. -/
inductive Qty where
  | all
  | num (n : Nat)
deriving DecidableEq, Repr

/-- `quantity !== "all" && allItems.length < quantity`. -/
def qtyLess (q : Qty) (len : Nat) : Bool :=
  match q with
  | .all => false
  | .num n => decide (len < n)

/-- `list[i]` for a JS (possibly negative) index. -/
def listGet? (l : List α) (i : Int) : Option α :=
  if 0 ≤ i then l.get? i.toNat else none

/-- The quantity/itemName/containerName parse at the top of
`take.execute` (the first token may be `all`, `name:all`, or a count). -/
def takeParse (parsedData : List String) : Qty × String × String :=
  if jsToLower ((parsedData.head?).getD "") == "all" then
    (.all, (parsedData.get? 1).getD "", containerNameOf (parsedData.drop 2))
  else if jsIncludes (jsToLower ((parsedData.head?).getD "")) ":all" then
    (.all, (splitColon ((parsedData.head?).getD "")).headD "",
     containerNameOf (parsedData.drop 1))
  else if isNumericJS ((parsedData.head?).getD "") then
    (.num (parseIntJS ((parsedData.head?).getD "")), (parsedData.get? 1).getD "",
     containerNameOf (parsedData.drop 2))
  else
    (.num 1, (parsedData.head?).getD "", containerNameOf (parsedData.drop 1))

/-- The indexed candidate list of the disambiguation replies:
`items.map((item, i) => `"${item.name}:${i + 1}"`).join(", ")`. -/
def indexedNameList (items : List Item) : String :=
  String.intercalate ", "
    (items.enum.map (fun p => "\"" ++ p.2.name ++ ":" ++ Nat.repr (p.1 + 1) ++ "\""))

/-- What a take command run reports back: the arguments of each
`userManager.send` call it made, its return value (`none` for the bare
`return`s, which yield `undefined`), and the item store it leaves. -/
structure TakeResult where
  sends : List (List String × String)
  retval : Option Bool
  state : ItemMState
deriving DecidableEq, Repr

/-- The room-scoped item criteria of `take.execute`. -/
def roomCriteria (user : SUser) (base : String) : Criteria :=
  { location := some (jsToString user.zoneId ++ ":" ++ jsToString user.roomId),
    name := some base }

/-- The `itemsToTake.forEach` mutation plus the final room broadcast:
each taken item gets `owner = user.id`, `location = null` — mutating the
cached object in place, which under the store's keyed-by-id layout is the
by-id replacement — and is saved. -/
def takeCommit (user : SUser) (roster : List SUser) (stx : ItemMState)
    (base : String) (itemsToTake : List Item) : TakeResult :=
  { sends := [((getRoomUsers roster user.zoneId user.roomId).map (fun u => u.id),
      "[p:" ++ (if user.morphedName ≠ "" then user.morphedName
                else user.firstName ++ " " ++ user.lastName)
        ++ "] takes " ++ Nat.repr itemsToTake.length ++ " [i:" ++ base ++ "](s).")],
    retval := some true,
    state := itemsToTake.foldl (fun s it =>
      { items := mapInsert s.items (it.id, { it with owner := some user.id, location := none }),
        files := saveItem s.files { it with owner := some user.id, location := none } }) stx }

/-- The shared tail of `take.execute` once the candidate list is fixed:
the zero/not-enough/ambiguous guards, then the ordinal / all / first-n
selection and the commit. -/
def takeFromList (user : SUser) (roster : List SUser) (stx : ItemMState)
    (quantity : Qty) (base itemName : String) (itemIndex : Option Int)
    (inContainer : Bool) (allItems : List Item) : TakeResult :=
  if allItems.length == 0 then
    { sends := [([user.id], "No \"" ++ base ++ "\" found "
        ++ (if inContainer then "in the container" else "in the room") ++ ".")],
      retval := some false, state := stx }
  else if qtyLess quantity allItems.length && (itemIndex == none) then
    { sends := [([user.id], "Not enough \"" ++ base ++ "\" found "
        ++ (if inContainer then "in the container" else "in the room") ++ ".")],
      retval := some false, state := stx }
  else if decide (1 < allItems.length) && (itemIndex == none)
      && (quantity == Qty.num 1) then
    { sends := [([user.id], "More than one \"" ++ base ++ "\" found "
        ++ (if inContainer then "in the container" else "in the room")
        ++ ". Please specify: " ++ indexedNameList allItems)],
      retval := some false, state := stx }
  else
    match itemIndex with
    | some i =>
        match listGet? allItems i with
        | none =>
            { sends := [([user.id], "No \"" ++ itemName ++ "\" found "
                ++ (if inContainer then "in the container" else "in the room") ++ ".")],
              retval := some false, state := stx }
        | some it => takeCommit user roster stx base [it]
    | none =>
        match quantity with
        | .all => takeCommit user roster stx base allItems
        | .num n => takeCommit user roster stx base (allItems.take n)

/-- JS string of an integer. -/
def intStr (i : Int) : String :=
  if 0 ≤ i then Nat.repr i.toNat else "-" ++ Nat.repr (-i).toNat

/-- The container branch of `take.execute`. -/
def takeViaContainer (user : SUser) (roster : List SUser) (st1 : ItemMState)
    (quantity : Qty) (base itemName : String) (itemIndex : Option Int)
    (containerName : String) : TakeResult :=
  let baseContainerName := (((splitColon containerName).head?).getD "")
  let containerIndex : Option Int :=
    match (splitColon containerName).get? 1 with
    | some t => if isNumericJS t then some ((parseIntJS t : Int) - 1) else none
    | none => none
  match findItems st1 { location := some (jsToString user.zoneId ++ ":" ++ jsToString user.roomId),
                        name := some baseContainerName, container := some true } with
  | (roomContainers, st2) =>
      match findItems st2 { owner := some user.id, name := some baseContainerName,
                            container := some true } with
      | (userContainers, st3) =>
          if (roomContainers ++ userContainers).length == 0 then
            { sends := [([user.id], "Container \"" ++ baseContainerName ++ "\" not found.")],
              retval := some false, state := st3 }
          else if decide (1 < (roomContainers ++ userContainers).length)
              && (containerIndex == none) then
            { sends := [([user.id], "More than one \"" ++ baseContainerName
                ++ "\" found. Please specify: "
                ++ indexedNameList (roomContainers ++ userContainers))],
              retval := some false, state := st3 }
          else
            match (match containerIndex with
                   | some i => listGet? (roomContainers ++ userContainers) i
                   | none => (roomContainers ++ userContainers).head?) with
            | none =>
                { sends := [([user.id], "Container \"" ++ baseContainerName ++ ":"
                    ++ intStr ((containerIndex.getD 0) + 1) ++ "\" not found.")],
                  retval := some false, state := st3 }
            | some container =>
                if !(container.openF == some true) then
                  { sends := [([user.id], "The \"" ++ container.name ++ "\" is closed.")],
                    retval := some false, state := st3 }
                else
                  match findItems st3 { location := some container.id, name := some base } with
                  | (containerItems, st4) =>
                      takeFromList user roster st4 quantity base itemName itemIndex
                        true containerItems

/-- `take.execute(params)`: role gate, usage gate, parse, candidate
search, and the guarded take. -/
def takeExecute (user : SUser) (roster : List SUser) (st : ItemMState)
    (data : String) : TakeResult :=
  if user.role == "visitor" then
    { sends := [([user.id], "Visitors cannot use item tools, please use [c:user create] to create an account.")],
      retval := none, state := st }
  else if data == "" then
    { sends := [([user.id], "Usage: Use [c:take <item>] to take an item. Use [c:take <quantity> <item>] to take multiple items. Use [c:take <item> from <container>] to take an item from a container.")],
      retval := none, state := st }
  else
    match takeParse (tokenize data) with
    | (quantity, itemName, containerName) =>
        if containerName == "" then
          takeFromList user roster
            (findItems st (roomCriteria user (((splitColon itemName).head?).getD ""))).2
            quantity (((splitColon itemName).head?).getD "") itemName
            (match (splitColon itemName).get? 1 with
             | some t => if isNumericJS t then some ((parseIntJS t : Int) - 1) else none
             | none => none)
            false
            (findItems st (roomCriteria user (((splitColon itemName).head?).getD ""))).1
        else
          takeViaContainer user roster
            (findItems st (roomCriteria user (((splitColon itemName).head?).getD ""))).2
            quantity (((splitColon itemName).head?).getD "") itemName
            (match (splitColon itemName).get? 1 with
             | some t => if isNumericJS t then some ((parseIntJS t : Int) - 1) else none
             | none => none)
            containerName

theorem lookup_map_keyswap_ne (m : List (String × α)) (kv : String × α)
    (k : String) (h : k ≠ kv.1) :
    lookupVal (m.map (fun e => if e.1 == kv.1 then (e.1, kv.2) else e)) k
      = lookupVal m k := by
  induction m with
  | nil => rfl
  | cons e t ih =>
      by_cases hekv : (e.1 == kv.1) = true
      · have hek : (e.1 == k) = false :=
          beq_eq_false_iff_ne.mpr (by
            rw [beq_iff_eq.mp hekv]; exact fun hc => h hc.symm)
        simp only [List.map_cons, hekv, if_true, lookupVal, List.find?_cons, hek]
        exact ih
      · have hekv' : (e.1 == kv.1) = false := by
          cases hv : (e.1 == kv.1)
          · rfl
          · exact absurd hv hekv
        simp only [List.map_cons, hekv', Bool.false_eq_true, if_false]
        by_cases hek : (e.1 == k) = true
        · simp [lookupVal, List.find?_cons, hek]
        · have hek' : (e.1 == k) = false := by
            cases hv : (e.1 == k)
            · rfl
            · exact absurd hv hek
          simp only [lookupVal, List.find?_cons, hek']
          exact ih

theorem lookup_append_singleton_ne (m : List (String × α)) (kv : String × α)
    (k : String) (h : k ≠ kv.1) :
    lookupVal (m ++ [kv]) k = lookupVal m k := by
  induction m with
  | nil =>
      have : (kv.1 == k) = false :=
        beq_eq_false_iff_ne.mpr (fun hc => h hc.symm)
      simp [lookupVal, List.find?_cons, this]
  | cons e t ih =>
      by_cases hek : (e.1 == k) = true
      · simp [lookupVal, List.find?_cons, hek]
      · have hek' : (e.1 == k) = false := by
          cases hv : (e.1 == k)
          · rfl
          · exact absurd hv hek
        simp only [List.cons_append, lookupVal, List.find?_cons, hek']
        exact ih

theorem lookup_mapInsert_ne (m : List (String × α)) (kv : String × α)
    (k : String) (h : k ≠ kv.1) :
    lookupVal (mapInsert m kv) k = lookupVal m k := by
  unfold mapInsert
  by_cases hk : hasKey m kv.1
  · rw [if_pos hk]
    exact lookup_map_keyswap_ne m kv k h
  · rw [if_neg hk]
    exact lookup_append_singleton_ne m kv k h

/-- C7 (amended): a take command whose item token carries neither an
ordinal nor an `:all` selector, and whose quantity is the default 1 (no
explicit count token), with more than one candidate in the room, sends
the actor the full candidate list annotated with 1-based indices in
store-search order and mutates no item (the store only gains the
hydrated cache); the same command with `name:2` (for any second-listed
candidate `c2`) mutates exactly `c2` — giving it the actor as owner and
clearing its location — and leaves every other id's cache and record
entries unchanged. -/
theorem take_disambiguation_and_ordinal (user : SUser) (roster : List SUser)
    (st : ItemMState) (data : String)
    (hrole : (user.role == "visitor") = false)
    (hdata : (data == "") = false)
    (htok : tokenize data = [data])
    (hnoall : (jsToLower data == "all") = false)
    (hnocolonall : jsIncludes (jsToLower data) ":all" = false)
    (hnonum : isNumericJS data = false)
    (hnocolon : splitColon data = [data])
    (hmany : 1 < (findItems st (roomCriteria user data)).1.length)
    (htok2 : tokenize (data ++ ":2") = [data ++ ":2"])
    (hnoall2 : (jsToLower (data ++ ":2") == "all") = false)
    (hnocolonall2 : jsIncludes (jsToLower (data ++ ":2")) ":all" = false)
    (hnonum2 : isNumericJS (data ++ ":2") = false)
    (hdata2 : (data ++ ":2" == "") = false)
    (hsplit2 : splitColon (data ++ ":2") = [data, "2"]) :
    (takeExecute user roster st data
       = { sends := [([user.id], "More than one \"" ++ data ++ "\" found "
             ++ "in the room" ++ ". Please specify: "
             ++ indexedNameList (findItems st (roomCriteria user data)).1)],
           retval := some false,
           state := (findItems st (roomCriteria user data)).2 }) ∧
    (∀ c2, (findItems st (roomCriteria user data)).1.get? 1 = some c2 →
       takeExecute user roster st (data ++ ":2")
         = { sends := [((getRoomUsers roster user.zoneId user.roomId).map (fun u => u.id),
               "[p:" ++ (if user.morphedName ≠ "" then user.morphedName
                         else user.firstName ++ " " ++ user.lastName)
                 ++ "] takes " ++ Nat.repr 1 ++ " [i:" ++ data ++ "](s).")],
             retval := some true,
             state := { items := mapInsert (findItems st (roomCriteria user data)).2.items
                          (c2.id, { c2 with owner := some user.id, location := none }),
                        files := saveItem (findItems st (roomCriteria user data)).2.files
                          { c2 with owner := some user.id, location := none } } } ∧
       (∀ k, k ≠ c2.id →
          lookupVal (takeExecute user roster st (data ++ ":2")).state.items k
            = lookupVal (findItems st (roomCriteria user data)).2.items k ∧
          lookupVal (takeExecute user roster st (data ++ ":2")).state.files k
            = lookupVal (findItems st (roomCriteria user data)).2.files k)) := by
  have hlen0 : ((findItems st (roomCriteria user data)).1.length == 0) = false :=
    beq_eq_false_iff_ne.mpr (by omega)
  have hqty1 : qtyLess (Qty.num 1) (findItems st (roomCriteria user data)).1.length
      = false := by
    unfold qtyLess
    exact decide_eq_false (by omega)
  have hgt1 : decide (1 < (findItems st (roomCriteria user data)).1.length) = true :=
    decide_eq_true hmany
  have hcnil : (containerNameOf [] == "") = true := by decide
  constructor
  · -- the ambiguous command: indexed list, no mutation
    unfold takeExecute
    rw [hrole]
    simp only [Bool.false_eq_true, if_false]
    rw [hdata]
    simp only [Bool.false_eq_true, if_false]
    rw [htok]
    have hparse : takeParse [data] = (Qty.num 1, data, containerNameOf []) := by
      unfold takeParse
      simp only [List.head?_cons, Option.getD_some]
      rw [hnoall]
      simp only [Bool.false_eq_true, if_false]
      rw [hnocolonall]
      simp only [Bool.false_eq_true, if_false]
      rw [hnonum]
      simp only [Bool.false_eq_true, if_false]
      rfl
    rw [hparse]
    dsimp only
    rw [hcnil]
    simp only [if_true]
    rw [hnocolon]
    simp only [List.head?_cons, Option.getD_some, List.get?_cons_succ, List.get?_nil]
    unfold takeFromList
    rw [hlen0]
    simp only [Bool.false_eq_true, if_false]
    rw [hqty1]
    simp only [Bool.false_and, Bool.false_eq_true, if_false]
    have hcond3 : (decide (1 < (findItems st (roomCriteria user data)).1.length)
        && ((none : Option Int) == none) && (Qty.num 1 == Qty.num 1)) = true := by
      rw [hgt1]
      rfl
    rw [hcond3]
    simp only [if_true]
  · -- the ordinal command: exactly the second candidate is taken
    intro c2 hc2
    have hexec : takeExecute user roster st (data ++ ":2")
        = { sends := [((getRoomUsers roster user.zoneId user.roomId).map (fun u => u.id),
              "[p:" ++ (if user.morphedName ≠ "" then user.morphedName
                        else user.firstName ++ " " ++ user.lastName)
                ++ "] takes " ++ Nat.repr 1 ++ " [i:" ++ data ++ "](s).")],
            retval := some true,
            state := { items := mapInsert (findItems st (roomCriteria user data)).2.items
                         (c2.id, { c2 with owner := some user.id, location := none }),
                       files := saveItem (findItems st (roomCriteria user data)).2.files
                         { c2 with owner := some user.id, location := none } } } := by
      unfold takeExecute
      rw [hrole]
      simp only [Bool.false_eq_true, if_false]
      rw [hdata2]
      simp only [Bool.false_eq_true, if_false]
      rw [htok2]
      have hparse2 : takeParse [data ++ ":2"]
          = (Qty.num 1, data ++ ":2", containerNameOf []) := by
        unfold takeParse
        simp only [List.head?_cons, Option.getD_some]
        rw [hnoall2]
        simp only [Bool.false_eq_true, if_false]
        rw [hnocolonall2]
        simp only [Bool.false_eq_true, if_false]
        rw [hnonum2]
        simp only [Bool.false_eq_true, if_false]
        rfl
      rw [hparse2]
      dsimp only
      rw [hcnil]
      simp only [if_true]
      rw [hsplit2]
      simp only [List.head?_cons, Option.getD_some, List.get?_cons_succ,
        List.get?_cons_zero]
      have hnum2 : isNumericJS "2" = true := by decide
      rw [hnum2]
      simp only [if_true]
      have hidx : (some ((parseIntJS "2" : Int) - 1)) = some (1 : Int) := by decide
      rw [hidx]
      unfold takeFromList
      rw [hlen0]
      simp only [Bool.false_eq_true, if_false]
      have hsn : ((some (1 : Int) == (none : Option Int))) = false := rfl
      rw [hsn]
      simp only [Bool.and_false, Bool.false_and, Bool.false_eq_true, if_false]
      have hget : listGet? (findItems st (roomCriteria user data)).1 1
          = (findItems st (roomCriteria user data)).1.get? 1 := by
        simp [listGet?]
      rw [hget, hc2]
      dsimp only
      unfold takeCommit
      simp
    refine ⟨hexec, ?_⟩
    intro k hk
    rw [hexec]
    constructor
    · exact lookup_mapInsert_ne _ (c2.id, { c2 with owner := some user.id, location := none }) k hk
    · exact lookup_mapInsert_ne _ ({ c2 with owner := some user.id, location := none }.id,
        { c2 with owner := some user.id, location := none }) k hk

/-- Concrete actor for C7. -/
def c7User : SUser :=
  { id := "u1", firstName := "Ann", lastName := "Lee", role := "player",
    status := "active", online := true, zoneId := .str "001",
    roomId := .str "001", client := some 1 }

/-- First coin in the room. -/
def c7Coin1 : Item := { id := "c1", name := "coin", location := some "001:001" }

/-- Second coin in the room. -/
def c7Coin2 : Item := { id := "c2", name := "coin", location := some "001:001" }

/-- Item store with both coins cached and persisted. -/
def c7State : ItemMState :=
  { items := [("c1", c7Coin1), ("c2", c7Coin2)],
    files := [("c1", c7Coin1), ("c2", c7Coin2)] }

/-- Counterexample for C7 as stated: `take 2 coin` supplies neither an
ordinal nor an `:all` selector, its name predicate matches two
candidates, and yet the command does not reply with the candidate list
and does mutate items — it takes the first two, giving both coins an
owner. The refusal to guess is bypassed by any explicit quantity. -/
theorem take_with_quantity_mutates_despite_ambiguity :
    (findItems c7State (roomCriteria c7User "coin")).1.length = 2 ∧
    (takeExecute c7User [c7User] c7State "2 coin").retval = some true ∧
    lookupVal (takeExecute c7User [c7User] c7State "2 coin").state.files "c1"
      = some { c7Coin1 with owner := some "u1", location := none } ∧
    lookupVal (takeExecute c7User [c7User] c7State "2 coin").state.files "c2"
      = some { c7Coin2 with owner := some "u1", location := none } := by
  refine ⟨by decide, by decide, by decide, by decide⟩

/-- Witness for C7 (amended) at the two-coin store: `take coin` returns
the indexed two-entry list without mutating, `take coin:2` takes exactly
the second-listed coin. -/
theorem take_disambiguation_and_ordinal_witness :
    (takeExecute c7User [c7User] c7State "coin"
       = { sends := [([c7User.id], "More than one \"" ++ "coin" ++ "\" found "
             ++ "in the room" ++ ". Please specify: "
             ++ indexedNameList (findItems c7State (roomCriteria c7User "coin")).1)],
           retval := some false,
           state := (findItems c7State (roomCriteria c7User "coin")).2 }) ∧
    (takeExecute c7User [c7User] c7State ("coin" ++ ":2")
       = { sends := [((getRoomUsers [c7User] c7User.zoneId c7User.roomId).map (fun u => u.id),
             "[p:" ++ (if c7User.morphedName ≠ "" then c7User.morphedName
                       else c7User.firstName ++ " " ++ c7User.lastName)
               ++ "] takes " ++ Nat.repr 1 ++ " [i:" ++ "coin" ++ "](s).")],
           retval := some true,
           state := { items := mapInsert (findItems c7State (roomCriteria c7User "coin")).2.items
                        (c7Coin2.id, { c7Coin2 with owner := some c7User.id, location := none }),
                      files := saveItem (findItems c7State (roomCriteria c7User "coin")).2.files
                        { c7Coin2 with owner := some c7User.id, location := none } } }) :=
  have h := take_disambiguation_and_ordinal c7User [c7User] c7State "coin"
    (by decide) (by decide) (by decide) (by decide) (by decide) (by decide)
    (by decide) (by decide) (by decide) (by decide) (by decide) (by decide)
    (by decide) (by decide)
  ⟨h.1, (h.2 c7Coin2 (by decide)).1⟩

/-! ### ClientHandler session state machine (modules/clientHandler.js) -/

/-- The configuration the handler consults: the start room
(`START_ZONE`/`START_ROOM`, default `'000'`) and the banner/welcome/
spawn/MOTD texts (settings/env with literal fallbacks). -/
structure Config where
  startZone : String := "000"
  startRoom : String := "000"
  bannerMessage : String := "SERVER BANNER"
  welcomeMessage : String := "Welcome [p:<player_name>] to the server."
  spawnMessage : String := "... and BOOM! you exist ..."
  motdMessage : String := "SERVER MOTD"
deriving DecidableEq, Repr

/-- The color-check prompt of `colorCheck()`. -/
def colorPrompt : String :=
  "\r\nChecking if you support ansi colors.\r\nCan you see this [c:text] in color?\r\n(y/n) > "

/-- The high-ASCII prompt of `highAsciiCheck()`. -/
def highAsciiPrompt : String :=
  "\r\nChecking if you support special characters.\r\nCan you see BOTH of these characters correctly: ♥ and ¤ ?\r\n(y/n) > "

/-- The "press enter" line sent before `welcome_pause`. -/
def pressEnterMsg : String := "Press [c:enter] to continue."

/-- The join notice broadcast when the actor leaves `welcome_pause`. -/
def joinMsg (u : SUser) : String :=
  "[p:" ++ u.firstName ++ " " ++ u.lastName ++ "] has connected."

/-- The `sendPrompt()` text. -/
def promptText (u : SUser) : String :=
  "[b:? for help][p:" ++ (if u.morphedName ≠ "" then u.morphedName
    else u.firstName ++ " " ++ u.lastName) ++ "] <red>:><reset> "

/-- `this.user` as seen through the roster (the handler holds the object
the constructor pushed; roster ids are unique uuids). -/
def getById (w : World) (id : String) : Option SUser :=
  w.users.find? (fun u => u.id == id)

/-- An in-place mutation of the handler's user object. -/
def mapById (w : World) (id : String) (f : SUser → SUser) : World :=
  { w with users := w.users.map (fun u => if u.id == id then f u else u) }

/-- `handleColorCheck(strData)`: on `y`/`n` record color support, move to
`asciiCheck` and send the high-ASCII prompt; on anything else re-send the
same color prompt, leaving the status untouched. -/
def handleColorCheck (w : World) (selfId : String) (strData : String) : World :=
  if jsToLower strData == "y" || jsToLower strData == "n" then
    send (mapById w selfId (fun u =>
        { u with supportsColor := jsToLower strData == "y", status := "asciiCheck" }))
      [selfId] highAsciiPrompt true
  else
    send w [selfId] colorPrompt true

/-- `handleHighAsciiCheck(strData)`: on `y`/`n` record high-ASCII
support, send banner, welcome, spawn, MOTD and the press-enter line, then
move to `welcome_pause`; otherwise re-send the same prompt. -/
def handleHighAsciiCheck (cfg : Config) (w : World) (selfId : String)
    (strData : String) : World :=
  if jsToLower strData == "y" || jsToLower strData == "n" then
    mapById
      (send (send (send (send (send
        (mapById w selfId (fun u =>
          { u with supportsHighAscii := jsToLower strData == "y" }))
        [selfId] cfg.bannerMessage true)
        [selfId] cfg.welcomeMessage true)
        [selfId] cfg.spawnMessage true)
        [selfId] cfg.motdMessage true)
        [selfId] pressEnterMsg true)
      selfId (fun u => { u with status := "welcome_pause" })
  else
    send w [selfId] highAsciiPrompt true

/-- `checkTerminalCapabilities(strData)`: dispatch on the session status;
in `welcome_pause` any input activates the actor, broadcasts the join
notice to the active actors and moves the actor to the configured start
room. Returns whether the input was consumed by the negotiation. -/
def checkTerminalCapabilities (cfg : Config) (w : World) (selfId : String)
    (strData : String) : Bool × World :=
  match getById w selfId with
  | none => (false, w)
  | some self =>
      if self.status == "colorCheck" then
        (true, handleColorCheck w selfId strData)
      else if self.status == "asciiCheck" then
        (true, handleHighAsciiCheck cfg w selfId strData)
      else if self.status == "welcome_pause" then
        (true,
         (moveUser
            (broadcast (mapById w selfId (fun u => { u with status := "active" }))
              (joinMsg self))
            [selfId] (.str cfg.startZone) (.str cfg.startRoom)).2)
      else (false, w)

/-- `sendPrompt()`: only an `active` actor gets the prompt. -/
def sendPrompt (w : World) (selfId : String) : World :=
  match getById w selfId with
  | none => w
  | some self =>
      if self.status == "active" then send w [selfId] (promptText self) true
      else w

/-- One inbound line in the negotiation states: trim, run the capability
check, then `sendPrompt`. (When the capability check returns `false` the
real handler routes the line into the command dispatch modelled by
`handleCommands`; the lifecycle claim only drives the negotiation
states, where the check consumes the line.) -/
def processInput (cfg : Config) (w : World) (selfId : String) (d : String) : World :=
  sendPrompt (checkTerminalCapabilities cfg w selfId (jsTrim d)).2 selfId

/-! Helper lemmas for the lifecycle theorem. -/

theorem map_ifId_id (l : List SUser) (x : String) (f : SUser → SUser)
    (h : ∀ v ∈ l, v.id ≠ x) :
    l.map (fun u => if u.id == x then f u else u) = l := by
  have hcongr : ∀ v ∈ l, (fun u => if u.id == x then f u else u) v = v := by
    intro v hv
    simp [beq_eq_false_iff_ne.mpr (h v hv)]
  rw [List.map_congr_left hcongr]
  exact List.map_id' l

theorem mapById_decomp (pre post : List SUser) (self : SUser)
    (rooms : RoomMState) (log : List SendEntry) (f : SUser → SUser)
    (hpre : ∀ v ∈ pre, v.id ≠ self.id) (hpost : ∀ v ∈ post, v.id ≠ self.id) :
    mapById { users := pre ++ self :: post, rooms := rooms, log := log } self.id f
      = { users := pre ++ f self :: post, rooms := rooms, log := log } := by
  unfold mapById
  simp only [List.map_append, List.map_cons]
  rw [map_ifId_id pre self.id f hpre, map_ifId_id post self.id f hpost]
  simp

theorem find?_id_decomp (pre post : List SUser) (self : SUser)
    (hpre : ∀ v ∈ pre, v.id ≠ self.id) :
    (pre ++ self :: post).find? (fun u => u.id == self.id) = some self := by
  induction pre with
  | nil => simp [List.find?_cons]
  | cons h t ih =>
      have hne : (h.id == self.id) = false :=
        beq_eq_false_iff_ne.mpr (hpre h (by simp))
      simp only [List.cons_append, List.find?_cons, hne]
      exact ih (fun v hv => hpre v (List.mem_cons_of_mem _ hv))

theorem getById_decomp (pre post : List SUser) (self : SUser)
    (rooms : RoomMState) (log : List SendEntry)
    (hpre : ∀ v ∈ pre, v.id ≠ self.id) :
    getById { users := pre ++ self :: post, rooms := rooms, log := log } self.id
      = some self :=
  find?_id_decomp pre post self hpre

theorem getUserIn_decomp (pre post : List SUser) (self : SUser)
    (honline : self.online = true)
    (hpre : ∀ v ∈ pre, v.id ≠ self.id) :
    getUserIn (pre ++ self :: post) self.id = some self := by
  unfold getUserIn getOnlineUsers
  rw [List.filter_append, List.filter_cons]
  simp only [honline, if_true]
  exact find?_id_decomp (pre.filter (fun u => u.online)) (post.filter (fun u => u.online))
    self (fun v hv => hpre v (List.mem_of_mem_filter hv))

theorem getUserIn_self_of_nodup {users : List SUser}
    (hnd : (users.map SUser.id).Nodup) {u : SUser}
    (hu : u ∈ users) (ho : u.online = true) :
    getUserIn users u.id = some u := by
  induction users with
  | nil => cases hu
  | cons h t ih =>
      rw [List.map_cons, List.nodup_cons] at hnd
      rcases List.mem_cons.mp hu with rfl | hu'
      · unfold getUserIn getOnlineUsers
        rw [List.filter_cons]
        simp [ho, List.find?_cons]
      · have hne : (h.id == u.id) = false :=
          beq_eq_false_iff_ne.mpr (by
            intro hc
            exact hnd.1 (hc ▸ List.mem_map_of_mem SUser.id hu'))
        unfold getUserIn getOnlineUsers
        rw [List.filter_cons]
        by_cases hon : h.online = true
        · simp only [hon, if_true, List.find?_cons, hne]
          exact ih hnd.2 hu'
        · have hon' : h.online = false := by
            cases hv : h.online
            · rfl
            · exact absurd hv hon
          simp only [hon', Bool.false_eq_true, if_false]
          exact ih hnd.2 hu'

theorem sendOne_resolved (w : World) (id : String) (m : String) (fmt : Bool)
    (u : SUser) (c : Nat)
    (hg : getUserIn w.users id = some u) (hc : u.client = some c) :
    sendOne w id m fmt = { w with log := w.log ++ [⟨u.id, c, m, fmt⟩] } := by
  unfold sendOne resolveWrite
  rw [hg]
  dsimp only
  rw [hc]

theorem send_single (w : World) (id : String) (m : String) (fmt : Bool) :
    send w [id] m fmt = sendOne w id m fmt := rfl

/-- The write `broadcast` performs for one active recipient. -/
def entryOf (msg : String) (u : SUser) : SendEntry :=
  ⟨u.id, u.client.getD 0, msg, true⟩

theorem foldl_send_log (msg : String) (l : List SUser) :
    ∀ w : World,
      (∀ u ∈ l, getUserIn w.users u.id = some u ∧ ∃ cc, u.client = some cc) →
      l.foldl (fun w' u => send w' [u.id] msg true) w
        = { w with log := w.log ++ l.map (entryOf msg) } := by
  induction l with
  | nil => intro w _; simp
  | cons u t ih =>
      intro w hl
      obtain ⟨hg, cc, hc⟩ := hl u (by simp)
      rw [List.foldl_cons, send_single, sendOne_resolved w u.id msg true u cc hg hc]
      have hl' : ∀ v ∈ t,
          getUserIn ({ w with log := w.log ++ [⟨u.id, cc, msg, true⟩] } : World).users v.id
            = some v ∧ ∃ c2, v.client = some c2 :=
        fun v hv => hl v (List.mem_cons_of_mem _ hv)
      rw [ih _ hl']
      simp [entryOf, hc]

theorem broadcast_log (w : World) (msg : String)
    (hnd : (w.users.map SUser.id).Nodup)
    (hact : ∀ u ∈ w.users, u.status = "active" →
      u.online = true ∧ ∃ cc, u.client = some cc) :
    broadcast w msg
      = { w with log := w.log ++ (getActiveUsers w.users).map (entryOf msg) } := by
  unfold broadcast
  apply foldl_send_log
  intro u hu
  have humem : u ∈ w.users := List.mem_of_mem_filter hu
  have hst : u.status = "active" := by
    have := List.of_mem_filter hu
    exact beq_iff_eq.mp (by simpa using this)
  obtain ⟨ho, cc, hc⟩ := hact u humem hst
  exact ⟨getUserIn_self_of_nodup hnd humem ho, cc, hc⟩

theorem countP_beq_id (l : List SUser) (x : String)
    (hnd : (l.map SUser.id).Nodup) (u : SUser) (hu : u ∈ l) (hx : u.id = x) :
    l.countP (fun v => v.id == x) = 1 := by
  induction l with
  | nil => cases hu
  | cons h t ih =>
      rw [List.map_cons, List.nodup_cons] at hnd
      rcases List.mem_cons.mp hu with rfl | hu'
      · have hh : (u.id == x) = true := beq_iff_eq.mpr hx
        have hz : t.countP (fun v => v.id == x) = 0 := by
          rw [List.countP_eq_zero]
          intro v hv
          have : v.id ≠ x := by
            intro hc
            exact hnd.1 (hx ▸ hc ▸ List.mem_map_of_mem SUser.id hv)
          simpa using this
        rw [List.countP_cons, hh, hz]
        simp
      · have hh : (h.id == x) = false :=
          beq_eq_false_iff_ne.mpr (by
            intro hc
            exact hnd.1 (hc ▸ hx ▸ List.mem_map_of_mem SUser.id hu'))
        rw [List.countP_cons, hh, ih hnd.2 hu']
        simp

theorem step_colorCheck_y (cfg : Config) (pre post : List SUser) (self : SUser)
    (rooms : RoomMState) (log : List SendEntry) (c : Nat)
    (hstatus : self.status = "colorCheck") (honline : self.online = true)
    (hclient : self.client = some c)
    (hpre : ∀ v ∈ pre, v.id ≠ self.id) (hpost : ∀ v ∈ post, v.id ≠ self.id) :
    processInput cfg { users := pre ++ self :: post, rooms := rooms, log := log }
        self.id "y"
      = { users := pre ++ { self with supportsColor := true, status := "asciiCheck" } :: post,
          rooms := rooms,
          log := log ++ [⟨self.id, c, highAsciiPrompt, true⟩] } := by
  unfold processInput
  have htrim : jsTrim "y" = "y" := by decide
  rw [htrim]
  unfold checkTerminalCapabilities
  rw [getById_decomp pre post self rooms log hpre]
  dsimp only
  rw [hstatus]
  simp only [beq_self_eq_true, if_true]
  unfold handleColorCheck
  have hyy : (jsToLower "y" == "y") = true := by decide
  rw [hyy]
  simp only [Bool.true_or, if_true]
  rw [mapById_decomp pre post self rooms log
    (fun u => { u with supportsColor := true, status := "asciiCheck" }) hpre hpost]
  rw [send_single, sendOne_resolved _ self.id highAsciiPrompt true
    { self with supportsColor := true, status := "asciiCheck" } c
    (getUserIn_decomp pre post
      { self with supportsColor := true, status := "asciiCheck" } honline hpre) hclient]
  unfold sendPrompt
  rw [show getById
      ({ users := pre ++ { self with supportsColor := true, status := "asciiCheck" } :: post,
         rooms := rooms, log := log ++ [⟨self.id, c, highAsciiPrompt, true⟩] } : World) self.id
      = some { self with supportsColor := true, status := "asciiCheck" } from
    getById_decomp pre post _ rooms _ hpre]
  rfl

theorem step_colorCheck_other (cfg : Config) (pre post : List SUser) (self : SUser)
    (rooms : RoomMState) (log : List SendEntry) (c : Nat) (t : String)
    (hstatus : self.status = "colorCheck") (honline : self.online = true)
    (hclient : self.client = some c)
    (hpre : ∀ v ∈ pre, v.id ≠ self.id)
    (hty : (jsToLower (jsTrim t) == "y") = false)
    (htn : (jsToLower (jsTrim t) == "n") = false) :
    processInput cfg { users := pre ++ self :: post, rooms := rooms, log := log }
        self.id t
      = { users := pre ++ self :: post, rooms := rooms,
          log := log ++ [⟨self.id, c, colorPrompt, true⟩] } := by
  unfold processInput
  unfold checkTerminalCapabilities
  rw [getById_decomp pre post self rooms log hpre]
  dsimp only
  rw [hstatus]
  simp only [beq_self_eq_true, if_true]
  unfold handleColorCheck
  rw [hty, htn]
  simp only [Bool.or_self, Bool.false_eq_true, if_false]
  rw [send_single, sendOne_resolved _ self.id colorPrompt true self c
    (getUserIn_decomp pre post self honline hpre) hclient]
  unfold sendPrompt
  rw [show getById
      ({ users := pre ++ self :: post, rooms := rooms,
         log := log ++ [⟨self.id, c, colorPrompt, true⟩] } : World) self.id
      = some self from getById_decomp pre post self rooms _ hpre]
  dsimp only
  rw [hstatus]
  rfl

theorem send_resolved (w : World) (id m : String) (u : SUser) (c : Nat)
    (hg : getUserIn w.users id = some u) (hc : u.client = some c) :
    send w [id] m true = { w with log := w.log ++ [⟨u.id, c, m, true⟩] } := by
  rw [send_single]
  exact sendOne_resolved w id m true u c hg hc

theorem step_asciiCheck_y (cfg : Config) (pre post : List SUser) (self : SUser)
    (rooms : RoomMState) (log : List SendEntry) (c : Nat)
    (hstatus : self.status = "asciiCheck") (honline : self.online = true)
    (hclient : self.client = some c)
    (hpre : ∀ v ∈ pre, v.id ≠ self.id) (hpost : ∀ v ∈ post, v.id ≠ self.id) :
    processInput cfg { users := pre ++ self :: post, rooms := rooms, log := log }
        self.id "y"
      = { users := pre
            ++ { self with supportsHighAscii := true, status := "welcome_pause" } :: post,
          rooms := rooms,
          log := log ++ [⟨self.id, c, cfg.bannerMessage, true⟩,
            ⟨self.id, c, cfg.welcomeMessage, true⟩,
            ⟨self.id, c, cfg.spawnMessage, true⟩,
            ⟨self.id, c, cfg.motdMessage, true⟩,
            ⟨self.id, c, pressEnterMsg, true⟩] } := by
  unfold processInput
  have htrim : jsTrim "y" = "y" := by decide
  rw [htrim]
  unfold checkTerminalCapabilities
  rw [getById_decomp pre post self rooms log hpre]
  dsimp only
  rw [hstatus]
  have hac : (("asciiCheck" : String) == "colorCheck") = false := by decide
  rw [hac]
  simp only [Bool.false_eq_true, if_false, beq_self_eq_true, if_true]
  unfold handleHighAsciiCheck
  have hyy : (jsToLower "y" == "y") = true := by decide
  rw [hyy]
  simp only [Bool.true_or, if_true]
  rw [mapById_decomp pre post self rooms log
    (fun u => { u with supportsHighAscii := true }) hpre hpost]
  have hres : getUserIn (pre ++ ({ self with supportsHighAscii := true }) :: post) self.id
      = some { self with supportsHighAscii := true } :=
    getUserIn_decomp pre post { self with supportsHighAscii := true } honline hpre
  rw [send_resolved _ self.id cfg.bannerMessage
        { self with supportsHighAscii := true } c hres hclient,
    send_resolved _ self.id cfg.welcomeMessage
        { self with supportsHighAscii := true } c hres hclient,
    send_resolved _ self.id cfg.spawnMessage
        { self with supportsHighAscii := true } c hres hclient,
    send_resolved _ self.id cfg.motdMessage
        { self with supportsHighAscii := true } c hres hclient,
    send_resolved _ self.id pressEnterMsg
        { self with supportsHighAscii := true } c hres hclient]
  rw [mapById_decomp pre post { self with supportsHighAscii := true } rooms _
    (fun u => { u with status := "welcome_pause" }) hpre hpost]
  unfold sendPrompt
  rw [show getById
      ({ users := pre
            ++ { self with supportsHighAscii := true, status := "welcome_pause" } :: post,
         rooms := rooms,
         log := ((((log ++ [⟨self.id, c, cfg.bannerMessage, true⟩])
             ++ [⟨self.id, c, cfg.welcomeMessage, true⟩])
             ++ [⟨self.id, c, cfg.spawnMessage, true⟩])
             ++ [⟨self.id, c, cfg.motdMessage, true⟩])
             ++ [⟨self.id, c, pressEnterMsg, true⟩] } : World) self.id
      = some { self with supportsHighAscii := true, status := "welcome_pause" } from
    getById_decomp pre post _ rooms _ hpre]
  dsimp only
  simp [List.append_assoc]

theorem step_asciiCheck_other (cfg : Config) (pre post : List SUser) (self : SUser)
    (rooms : RoomMState) (log : List SendEntry) (c : Nat) (t : String)
    (hstatus : self.status = "asciiCheck") (honline : self.online = true)
    (hclient : self.client = some c)
    (hpre : ∀ v ∈ pre, v.id ≠ self.id)
    (hty : (jsToLower (jsTrim t) == "y") = false)
    (htn : (jsToLower (jsTrim t) == "n") = false) :
    processInput cfg { users := pre ++ self :: post, rooms := rooms, log := log }
        self.id t
      = { users := pre ++ self :: post, rooms := rooms,
          log := log ++ [⟨self.id, c, highAsciiPrompt, true⟩] } := by
  unfold processInput
  unfold checkTerminalCapabilities
  rw [getById_decomp pre post self rooms log hpre]
  dsimp only
  rw [hstatus]
  have hac : (("asciiCheck" : String) == "colorCheck") = false := by decide
  rw [hac]
  simp only [Bool.false_eq_true, if_false, beq_self_eq_true, if_true]
  unfold handleHighAsciiCheck
  rw [hty, htn]
  simp only [Bool.or_self, Bool.false_eq_true, if_false]
  rw [send_resolved _ self.id highAsciiPrompt self c
    (getUserIn_decomp pre post self honline hpre) hclient]
  unfold sendPrompt
  rw [show getById
      ({ users := pre ++ self :: post, rooms := rooms,
         log := log ++ [⟨self.id, c, highAsciiPrompt, true⟩] } : World) self.id
      = some self from getById_decomp pre post self rooms _ hpre]
  dsimp only
  rw [hstatus]
  rfl

theorem step_welcome (cfg : Config) (pre post : List SUser) (self : SUser)
    (rooms : RoomMState) (log : List SendEntry) (c : Nat) (rm : Room) (t : String)
    (hstatus : self.status = "welcome_pause") (honline : self.online = true)
    (hclient : self.client = some c)
    (hpre : ∀ v ∈ pre, v.id ≠ self.id) (hpost : ∀ v ∈ post, v.id ≠ self.id)
    (hnd : ((pre ++ self :: post).map SUser.id).Nodup)
    (hactive : ∀ u ∈ pre ++ self :: post, u.status = "active" →
      u.online = true ∧ ∃ cc, u.client = some cc)
    (hroom : (loadRoom rooms (.str cfg.startZone) (.str cfg.startRoom)).1 = some rm) :
    processInput cfg { users := pre ++ self :: post, rooms := rooms, log := log }
        self.id t
      = { users := pre ++ ({ self with status := "active", zoneId := JSVal.str cfg.startZone, roomId := JSVal.str cfg.startRoom }) :: post,
          rooms := (loadRoom rooms (.str cfg.startZone) (.str cfg.startRoom)).2,
          log := log
            ++ (getActiveUsers (pre ++ ({ self with status := "active" }) :: post)).map
                 (entryOf (joinMsg self))
            ++ [⟨self.id, c, promptText { self with status := "active", zoneId := JSVal.str cfg.startZone, roomId := JSVal.str cfg.startRoom }, true⟩] } := by
  unfold processInput
  unfold checkTerminalCapabilities
  rw [getById_decomp pre post self rooms log hpre]
  dsimp only
  rw [hstatus]
  have h1 : (("welcome_pause" : String) == "colorCheck") = false := by decide
  have h2 : (("welcome_pause" : String) == "asciiCheck") = false := by decide
  rw [h1, h2]
  simp only [Bool.false_eq_true, if_false, beq_self_eq_true, if_true]
  rw [mapById_decomp pre post self rooms log
    (fun u => { u with status := "active" }) hpre hpost]
  have hnd' : ((pre ++ ({ self with status := "active" }) :: post).map SUser.id).Nodup := by
    rw [List.map_append, List.map_cons] at hnd ⊢
    exact hnd
  have hact' : ∀ u ∈ pre ++ ({ self with status := "active" }) :: post,
      u.status = "active" → u.online = true ∧ ∃ cc, u.client = some cc := by
    intro u hu hs
    rcases List.mem_append.mp hu with h | h
    · exact hactive u (List.mem_append_left _ h) hs
    · rcases List.mem_cons.mp h with rfl | h'
      · exact ⟨honline, c, hclient⟩
      · exact hactive u (List.mem_append_right _ (List.mem_cons_of_mem _ h')) hs
  rw [broadcast_log _ (joinMsg self) hnd' hact']
  unfold moveUser
  dsimp only
  have hlr : loadRoom rooms (.str cfg.startZone) (.str cfg.startRoom)
      = (some rm, (loadRoom rooms (.str cfg.startZone) (.str cfg.startRoom)).2) := by
    rw [← hroom]
  rw [hlr]
  dsimp only
  unfold moveUserLoop
  rw [show getUserIn (pre ++ ({ self with status := "active" }) :: post) self.id
      = some { self with status := "active" } from
    getUserIn_decomp pre post { self with status := "active" } honline hpre]
  dsimp only
  have hmap : (pre ++ ({ self with status := "active" }) :: post).map
      (fun u => if u.id == self.id then { u with zoneId := JSVal.str cfg.startZone, roomId := JSVal.str cfg.startRoom } else u)
      = pre ++ ({ self with status := "active", zoneId := JSVal.str cfg.startZone, roomId := JSVal.str cfg.startRoom }) :: post := by
    rw [List.map_append, List.map_cons, map_ifId_id pre self.id _ hpre,
      map_ifId_id post self.id _ hpost]
    simp
  rw [hmap]
  unfold moveUserLoop
  dsimp only
  unfold sendPrompt
  rw [show getById
      ({ users := pre ++ ({ self with status := "active", zoneId := JSVal.str cfg.startZone, roomId := JSVal.str cfg.startRoom }) :: post,
         rooms := (loadRoom rooms (.str cfg.startZone) (.str cfg.startRoom)).2,
         log := log ++ (getActiveUsers
             (pre ++ ({ self with status := "active" }) :: post)).map
             (entryOf (joinMsg self)) } : World) self.id
      = some { self with status := "active", zoneId := JSVal.str cfg.startZone, roomId := JSVal.str cfg.startRoom } from
    getById_decomp pre post _ _ _ hpre]
  dsimp only
  simp only [beq_self_eq_true, if_true]
  rw [send_resolved _ self.id _
    ({ self with status := "active", zoneId := JSVal.str cfg.startZone, roomId := JSVal.str cfg.startRoom }) c
    (getUserIn_decomp pre post
      ({ self with status := "active", zoneId := JSVal.str cfg.startZone, roomId := JSVal.str cfg.startRoom }) honline hpre) hclient]

theorem isPrefixOfB_append_self (n rest : List Char) :
    isPrefixOfB n (n ++ rest) = true := by
  induction n with
  | nil => rfl
  | cons a t ih => simp [isPrefixOfB, ih]

theorem containsSub_of_isPrefix {n hay : List Char}
    (h : isPrefixOfB n hay = true) : containsSub n hay = true := by
  cases hay with
  | nil => exact h
  | cons b bs => simp [containsSub, h]

theorem containsSub_mid (a n c : List Char) :
    containsSub n (a ++ (n ++ c)) = true := by
  induction a with
  | nil => exact containsSub_of_isPrefix (isPrefixOfB_append_self n c)
  | cons x a' ih => simp [containsSub, ih]

/-- The join notice textually contains the actor's full name. -/
theorem joinMsg_contains_name (u : SUser) :
    jsIncludes (joinMsg u) (u.firstName ++ " " ++ u.lastName) = true := by
  unfold jsIncludes joinMsg
  have := containsSub_mid "[p:".data
    (u.firstName.data ++ (" ".data ++ u.lastName.data)) "] has connected.".data
  simpa [String.data_append, List.append_assoc] using this

theorem countP_map_comp (p : β → Bool) (f : α → β) (l : List α) :
    (l.map f).countP p = l.countP (fun a => p (f a)) := by
  induction l with
  | nil => rfl
  | cons a t ih => simp [List.countP_cons, ih]

/-- C9: from a fresh connection in `colorCheck`, the inputs "y", "y",
then anything leave the actor `active` and relocated to the configured
start room; the join broadcast — whose text contains the actor's name —
is delivered exactly once to the actor and exactly once to every other
active actor; and in either negotiation state an input other than y/n
(case-insensitive) leaves the whole world unchanged except for re-sending
the very same prompt. -/
theorem session_negotiation_lifecycle
    (cfg : Config) (pre post : List SUser) (self : SUser)
    (rooms : RoomMState) (log : List SendEntry) (c : Nat) (rm : Room) (s3 : String)
    (hstatus : self.status = "colorCheck")
    (honline : self.online = true)
    (hclient : self.client = some c)
    (hpre : ∀ v ∈ pre, v.id ≠ self.id)
    (hpost : ∀ v ∈ post, v.id ≠ self.id)
    (hnd : ((pre ++ self :: post).map SUser.id).Nodup)
    (hactive : ∀ u ∈ pre ++ post, u.status = "active" →
      u.online = true ∧ ∃ cc, u.client = some cc)
    (hroom : (loadRoom rooms (.str cfg.startZone) (.str cfg.startRoom)).1 = some rm)
    (hne : ∀ m ∈ [colorPrompt, highAsciiPrompt, cfg.bannerMessage, cfg.welcomeMessage,
      cfg.spawnMessage, cfg.motdMessage, pressEnterMsg, promptText self],
      m ≠ joinMsg self) :
    jsIncludes (joinMsg self) (self.firstName ++ " " ++ self.lastName) = true ∧
    getById (processInput cfg (processInput cfg (processInput cfg
        { users := pre ++ self :: post, rooms := rooms, log := log } self.id "y")
        self.id "y") self.id s3) self.id
      = some { self with supportsColor := true, supportsHighAscii := true, status := "active", zoneId := JSVal.str cfg.startZone, roomId := JSVal.str cfg.startRoom } ∧
    ((processInput cfg (processInput cfg (processInput cfg
        { users := pre ++ self :: post, rooms := rooms, log := log } self.id "y")
        self.id "y") self.id s3).log.drop log.length).countP
      (fun e => e.rcpt == self.id && e.text == joinMsg self) = 1 ∧
    (∀ u ∈ pre ++ post, u.status = "active" →
      ((processInput cfg (processInput cfg (processInput cfg
          { users := pre ++ self :: post, rooms := rooms, log := log } self.id "y")
          self.id "y") self.id s3).log.drop log.length).countP
        (fun e => e.rcpt == u.id && e.text == joinMsg self) = 1) ∧
    (∀ t, (jsToLower (jsTrim t) == "y") = false → (jsToLower (jsTrim t) == "n") = false →
      processInput cfg { users := pre ++ self :: post, rooms := rooms, log := log } self.id t
        = { users := pre ++ self :: post, rooms := rooms,
            log := log ++ [⟨self.id, c, colorPrompt, true⟩] }) ∧
    (∀ t, (jsToLower (jsTrim t) == "y") = false → (jsToLower (jsTrim t) == "n") = false →
      processInput cfg (processInput cfg { users := pre ++ self :: post, rooms := rooms, log := log } self.id "y") self.id t
        = { users := pre ++ ({ self with supportsColor := true, status := "asciiCheck" }) :: post, rooms := rooms,
            log := (log ++ [⟨self.id, c, highAsciiPrompt, true⟩]) ++ [⟨self.id, c, highAsciiPrompt, true⟩] }) := by
  have hw1 : processInput cfg { users := pre ++ self :: post, rooms := rooms, log := log } self.id "y"
      = { users := pre ++ ({ self with supportsColor := true, status := "asciiCheck" }) :: post, rooms := rooms, log := log ++ [⟨self.id, c, highAsciiPrompt, true⟩] } :=
    step_colorCheck_y cfg pre post self rooms log c hstatus honline hclient hpre hpost
  have hw2 : processInput cfg { users := pre ++ ({ self with supportsColor := true, status := "asciiCheck" }) :: post, rooms := rooms, log := log ++ [⟨self.id, c, highAsciiPrompt, true⟩] } self.id "y"
      = { users := pre ++ ({ self with supportsColor := true, supportsHighAscii := true, status := "welcome_pause" }) :: post, rooms := rooms,
          log := (log ++ [⟨self.id, c, highAsciiPrompt, true⟩]) ++ [⟨self.id, c, cfg.bannerMessage, true⟩, ⟨self.id, c, cfg.welcomeMessage, true⟩, ⟨self.id, c, cfg.spawnMessage, true⟩, ⟨self.id, c, cfg.motdMessage, true⟩, ⟨self.id, c, pressEnterMsg, true⟩] } :=
    step_asciiCheck_y cfg pre post ({ self with supportsColor := true, status := "asciiCheck" }) rooms (log ++ [⟨self.id, c, highAsciiPrompt, true⟩]) c rfl honline hclient hpre hpost
  have hnd2 : ((pre ++ ({ self with supportsColor := true, supportsHighAscii := true, status := "welcome_pause" }) :: post).map SUser.id).Nodup := by
    rw [List.map_append, List.map_cons] at hnd ⊢
    exact hnd
  have hact2 : ∀ u ∈ pre ++ ({ self with supportsColor := true, supportsHighAscii := true, status := "welcome_pause" }) :: post,
      u.status = "active" → u.online = true ∧ ∃ cc, u.client = some cc := by
    intro u hu hs
    rcases List.mem_append.mp hu with h | h
    · exact hactive u (List.mem_append_left _ h) hs
    · rcases List.mem_cons.mp h with rfl | h'
      · simp at hs
      · exact hactive u (List.mem_append_right _ h') hs
  have hw3 : processInput cfg
      { users := pre ++ ({ self with supportsColor := true, supportsHighAscii := true, status := "welcome_pause" }) :: post, rooms := rooms,
        log := (log ++ [⟨self.id, c, highAsciiPrompt, true⟩]) ++ [⟨self.id, c, cfg.bannerMessage, true⟩, ⟨self.id, c, cfg.welcomeMessage, true⟩, ⟨self.id, c, cfg.spawnMessage, true⟩, ⟨self.id, c, cfg.motdMessage, true⟩, ⟨self.id, c, pressEnterMsg, true⟩] }
      self.id s3
      = { users := pre ++ ({ self with supportsColor := true, supportsHighAscii := true, status := "active", zoneId := JSVal.str cfg.startZone, roomId := JSVal.str cfg.startRoom }) :: post,
          rooms := (loadRoom rooms (.str cfg.startZone) (.str cfg.startRoom)).2,
          log := ((log ++ [⟨self.id, c, highAsciiPrompt, true⟩]) ++ [⟨self.id, c, cfg.bannerMessage, true⟩, ⟨self.id, c, cfg.welcomeMessage, true⟩, ⟨self.id, c, cfg.spawnMessage, true⟩, ⟨self.id, c, cfg.motdMessage, true⟩, ⟨self.id, c, pressEnterMsg, true⟩])
            ++ (getActiveUsers (pre ++ ({ self with supportsColor := true, supportsHighAscii := true, status := "active" }) :: post)).map (entryOf (joinMsg self))
            ++ [⟨self.id, c, promptText self, true⟩] } :=
    step_welcome cfg pre post ({ self with supportsColor := true, supportsHighAscii := true, status := "welcome_pause" }) rooms
      ((log ++ [⟨self.id, c, highAsciiPrompt, true⟩]) ++ [⟨self.id, c, cfg.bannerMessage, true⟩, ⟨self.id, c, cfg.welcomeMessage, true⟩, ⟨self.id, c, cfg.spawnMessage, true⟩, ⟨self.id, c, cfg.motdMessage, true⟩, ⟨self.id, c, pressEnterMsg, true⟩])
      c rm s3 rfl honline hclient hpre hpost hnd2 hact2 hroom
  have hndAct : (((pre ++ ({ self with supportsColor := true, supportsHighAscii := true, status := "active" }) :: post).filter
      (fun u => u.status == "active")).map SUser.id).Nodup := by
    have hndA : ((pre ++ ({ self with supportsColor := true, supportsHighAscii := true, status := "active" }) :: post).map SUser.id).Nodup := by
      rw [List.map_append, List.map_cons] at hnd ⊢
      exact hnd
    exact List.Nodup.sublist ((List.filter_sublist _).map SUser.id) hndA
  refine ⟨joinMsg_contains_name self, ?_, ?_, ?_, ?_, ?_⟩
  · rw [hw1, hw2, hw3]
    exact getById_decomp pre post _ _ _ hpre
  · rw [hw1, hw2, hw3]
    dsimp only
    simp only [getActiveUsers, List.append_assoc]
    rw [List.drop_left]
    have hfA : (highAsciiPrompt == joinMsg self) = false :=
      beq_eq_false_iff_ne.mpr (hne _ (by simp))
    have hfB : (cfg.bannerMessage == joinMsg self) = false :=
      beq_eq_false_iff_ne.mpr (hne _ (by simp))
    have hfW : (cfg.welcomeMessage == joinMsg self) = false :=
      beq_eq_false_iff_ne.mpr (hne _ (by simp))
    have hfS : (cfg.spawnMessage == joinMsg self) = false :=
      beq_eq_false_iff_ne.mpr (hne _ (by simp))
    have hfM : (cfg.motdMessage == joinMsg self) = false :=
      beq_eq_false_iff_ne.mpr (hne _ (by simp))
    have hfP : (pressEnterMsg == joinMsg self) = false :=
      beq_eq_false_iff_ne.mpr (hne _ (by simp))
    have hfPr : (promptText self == joinMsg self) = false :=
      beq_eq_false_iff_ne.mpr (hne _ (by simp))
    simp only [List.countP_append, List.countP_cons, List.countP_nil,
      hfA, hfB, hfW, hfS, hfM, hfP, hfPr, Bool.and_false, if_false]
    rw [countP_map_comp]
    have hred : (fun a => ((entryOf (joinMsg self) a).rcpt == self.id
          && (entryOf (joinMsg self) a).text == joinMsg self))
        = (fun a => a.id == self.id) := by
      funext a
      simp [entryOf]
    rw [hred]
    rw [countP_beq_id _ self.id hndAct
      ({ self with supportsColor := true, supportsHighAscii := true, status := "active" })
      (List.mem_filter.mpr ⟨List.mem_append_right _ (List.mem_cons_self _ _), by simp⟩) rfl]
    simp
  · intro u hu hs
    have hune : u.id ≠ self.id := by
      rcases List.mem_append.mp hu with h | h
      · exact hpre u h
      · exact hpost u h
    have hsx : (self.id == u.id) = false :=
      beq_eq_false_iff_ne.mpr (fun hc => hune hc.symm)
    rw [hw1, hw2, hw3]
    dsimp only
    simp only [getActiveUsers, List.append_assoc]
    rw [List.drop_left]
    simp only [List.countP_append, List.countP_cons, List.countP_nil,
      hsx, Bool.false_and, if_false]
    rw [countP_map_comp]
    have hred : (fun a => ((entryOf (joinMsg self) a).rcpt == u.id
          && (entryOf (joinMsg self) a).text == joinMsg self))
        = (fun a => a.id == u.id) := by
      funext a
      simp [entryOf]
    rw [hred]
    have humem : u ∈ (pre ++ ({ self with supportsColor := true, supportsHighAscii := true, status := "active" }) :: post).filter
        (fun v => v.status == "active") := by
      apply List.mem_filter.mpr
      refine ⟨?_, by simp [hs]⟩
      rcases List.mem_append.mp hu with h | h
      · exact List.mem_append_left _ h
      · exact List.mem_append_right _ (List.mem_cons_of_mem _ h)
    rw [countP_beq_id _ u.id hndAct u humem rfl]
    simp
  · exact fun t h1 h2 =>
      step_colorCheck_other cfg pre post self rooms log c t hstatus honline hclient hpre h1 h2
  · intro t h1 h2
    rw [hw1]
    exact step_asciiCheck_other cfg pre post
      ({ self with supportsColor := true, status := "asciiCheck" }) rooms
      (log ++ [⟨self.id, c, highAsciiPrompt, true⟩]) c t rfl honline hclient hpre h1 h2

/-- Concrete configuration for the C9 witness (all defaults). -/
def c9Cfg : Config := {}

/-- The freshly connected actor of the C9 witness. -/
def c9Self : SUser :=
  { id := "s1", firstName := "New", lastName := "Soul",
    status := "colorCheck", online := true, client := some 9 }

/-- An already-active actor who must receive the join broadcast once. -/
def c9Other : SUser :=
  { id := "o1", firstName := "Old", lastName := "Hand",
    status := "active", online := true, client := some 2 }

/-- The configured start room, cached in the store. -/
def c9Room : Room :=
  { roomId := "000", zoneId := "000", name := "Plaza",
    description := "The plaza.", lockable := false, locked := false,
    whitelist := [], temporary := true, creator := none, exits := [], props := [] }

/-- Room store for the C9 witness. -/
def c9Rooms : RoomMState := { rooms := [("000:000", c9Room)], files := [] }

/-- Witness for C9 at a concrete world: the negotiated actor ends up
active in the start room, the join broadcast (containing the name) hits
the actor once and the other active actor once, and a bad color-check
answer only re-sends the color prompt. -/
theorem session_negotiation_lifecycle_witness :
    jsIncludes (joinMsg c9Self) (c9Self.firstName ++ " " ++ c9Self.lastName) = true ∧
    getById (processInput c9Cfg (processInput c9Cfg (processInput c9Cfg
        { users := [] ++ c9Self :: [c9Other], rooms := c9Rooms, log := [] } c9Self.id "y")
        c9Self.id "y") c9Self.id "anything") c9Self.id
      = some { c9Self with supportsColor := true, supportsHighAscii := true, status := "active", zoneId := JSVal.str c9Cfg.startZone, roomId := JSVal.str c9Cfg.startRoom } ∧
    ((processInput c9Cfg (processInput c9Cfg (processInput c9Cfg
        { users := [] ++ c9Self :: [c9Other], rooms := c9Rooms, log := [] } c9Self.id "y")
        c9Self.id "y") c9Self.id "anything").log.drop ([] : List SendEntry).length).countP
      (fun e => e.rcpt == c9Self.id && e.text == joinMsg c9Self) = 1 ∧
    ((processInput c9Cfg (processInput c9Cfg (processInput c9Cfg
        { users := [] ++ c9Self :: [c9Other], rooms := c9Rooms, log := [] } c9Self.id "y")
        c9Self.id "y") c9Self.id "anything").log.drop ([] : List SendEntry).length).countP
      (fun e => e.rcpt == c9Other.id && e.text == joinMsg c9Self) = 1 ∧
    processInput c9Cfg { users := [] ++ c9Self :: [c9Other], rooms := c9Rooms, log := [] }
        c9Self.id "x"
      = { users := [] ++ c9Self :: [c9Other], rooms := c9Rooms,
          log := [] ++ [⟨c9Self.id, 9, colorPrompt, true⟩] } := by
  have h := session_negotiation_lifecycle c9Cfg [] [c9Other] c9Self c9Rooms [] 9
    c9Room "anything"
    (by decide) (by decide) (by decide)
    (by intro v hv; cases hv)
    (by decide)
    (by decide)
    (by
      intro u hu hs
      simp only [List.nil_append, List.mem_cons, List.not_mem_nil, or_false] at hu
      subst hu
      exact ⟨rfl, 2, rfl⟩)
    (by decide)
    (by decide)
  exact ⟨h.1, h.2.1, h.2.2.1,
    h.2.2.2.1 c9Other (by decide) (by decide),
    h.2.2.2.2.1 "x" (by decide) (by decide)⟩

end Talker
